/-
Verification of the TROADS canvas layout & routing engine.

This file is a shallow embedding, in Lean 4, of the geometry-driven
auto-layout, drag-classification and orthogonal edge-routing core of the
TROADS conversation-graph editor.  Coordinates are modelled as exact
rationals (`ℚ`); JavaScript's special numeric values (`NaN`, `±Infinity`,
`undefined`) are modelled explicitly by the `JNum` type where the source
code has to defend against them.  Each definition carries a reference to
the TypeScript source it embeds.
-/
import Mathlib

namespace Troads

/-! ## JS numeric primitives

`Math.abs`, `Math.min`, `Math.max` and `Math.sign` on (finite) numbers,
written with `if` so that they compute on concrete rationals. -/

/-- `Math.abs` on a finite number. -/
def jsAbs (q : ℚ) : ℚ := if q < 0 then -q else q

/-- `Math.min` on two finite numbers. -/
def jsMin (a b : ℚ) : ℚ := if a ≤ b then a else b

/-- `Math.max` on two finite numbers. -/
def jsMax (a b : ℚ) : ℚ := if a ≤ b then b else a

/-- `Math.sign` on a finite number. -/
def jsSign (q : ℚ) : ℚ := if q < 0 then -1 else if q = 0 then 0 else 1

theorem jsAbs_eq_abs (q : ℚ) : jsAbs q = |q| := by
  unfold jsAbs
  rcases lt_or_le q 0 with h | h
  · simp [h, abs_of_neg h]
  · simp [not_lt.mpr h, abs_of_nonneg h]

theorem jsAbs_nonneg (q : ℚ) : 0 ≤ jsAbs q := by
  rw [jsAbs_eq_abs]; exact abs_nonneg q

/-- Truthiness of a JS number: `0` (and `NaN`, which `ℚ` does not contain)
is falsy, everything else truthy.  `x || d` on numbers. -/
def jsOr (a b : ℚ) : ℚ := if a = 0 then b else a

/-- `x || d` where `x` is a possibly-missing number (`undefined || d = d`). -/
def jsOrOpt (a : Option ℚ) (b : ℚ) : ℚ :=
  match a with
  | some v => jsOr v b
  | none => b

/-! ## Layout constants (`src/constants.ts`, `LAYOUT_CONFIG`) -/

namespace LAYOUT_CONFIG

def GROUP_PADDING_TOP : ℚ := 30
def GROUP_PADDING_BOTTOM : ℚ := 15
def GROUP_WIDTH : ℚ := 400
def NODE_GAP : ℚ := 15
def NODE_PADDING_X : ℚ := 12
def DEFAULT_NODE_HEIGHT : ℚ := 150
def INIT_X : ℚ := 250
def INIT_Y : ℚ := 50
def OFFSET_Y : ℚ := 300
def BRANCH_OFFSET_X : ℚ := 60

end LAYOUT_CONFIG

/-! ## The node model (React Flow `Node` as the repository uses it) -/

/-- A point / position with finite coordinates. -/
structure Pt where
  x : ℚ
  y : ℚ
deriving DecidableEq, Repr

/-- The node kinds the repository creates (`chatNode` leaves and
`groupNode` containers). -/
inductive NType where
  | chatNode
  | groupNode
deriving DecidableEq, Repr

/-- A CSS dimension as stored in `style.height`: a plain number, a pixel
string carrying the integer `parseInt` extracts from it, or the dynamic
strings `"100%"` / `"auto"` that the layout code refuses to use for math. -/
inductive CssDim where
  | num (v : ℚ)
  | strPx (v : ℤ)
  | pct100
  | auto
deriving DecidableEq, Repr

/-- The slice of a React Flow `Node` that the layout, drag and routing
code reads and writes: id, type, parent-relative position, the optional
`style.width` / `style.height` overrides, the measured `width` / `height`,
the parent-group reference, selection and the `data.isLast` flag.
(Presentation-only fields such as `data.label`, callbacks and `extent`
carry no geometry and are not modelled.) -/
structure CNode where
  id : String
  type : NType
  position : Pt
  styleWidth : Option ℚ
  styleHeight : Option CssDim
  width : Option ℚ
  height : Option ℚ
  parentNode : Option String
  selected : Bool
  isLast : Bool
deriving DecidableEq, Repr

/-! ## `src/utils/layoutUtils.ts` -/

/-- Fallback of `getNodeHeight` (`src/utils/layoutUtils.ts` line 33):
`node.height || LAYOUT_CONFIG.DEFAULT_NODE_HEIGHT || 100`. -/
def getNodeHeightFallback (node : CNode) : ℚ :=
  jsOrOpt node.height (jsOr LAYOUT_CONFIG.DEFAULT_NODE_HEIGHT 100)

/-- `getNodeHeight` (`src/utils/layoutUtils.ts` lines 14–34): a numeric
`style.height` wins; a pixel string is `parseInt`-ed; `"100%"` and
`"auto"` fall through to the measured height / default. -/
def getNodeHeight (node : CNode) : ℚ :=
  match node.styleHeight with
  | some (CssDim.num v) => v
  | some (CssDim.strPx v) => (v : ℚ)
  | some CssDim.pct100 => getNodeHeightFallback node
  | some CssDim.auto => getNodeHeightFallback node
  | none => getNodeHeightFallback node

/-- The reducer of `LayoutUtils.getNextNodeY`
(`src/utils/layoutUtils.ts` lines 49–51):
`(prev, curr) => prev.position.y > curr.position.y ? prev : curr`. -/
def lowestOf (first : CNode) (rest : List CNode) : CNode :=
  rest.foldl (fun prev curr => if prev.position.y > curr.position.y then prev else curr) first

/-- `LayoutUtils.getNextNodeY` (`src/utils/layoutUtils.ts` lines 44–55). -/
def getNextNodeY (siblings : List CNode) : ℚ :=
  match siblings with
  | [] => LAYOUT_CONFIG.GROUP_PADDING_TOP
  | first :: rest =>
    let lowestNode := lowestOf first rest
    lowestNode.position.y + getNodeHeight lowestNode + LAYOUT_CONFIG.NODE_GAP

/-- `LayoutUtils.getGroupHeight` (`src/utils/layoutUtils.ts` lines 64–84).
`activeNodeId`/`activeNodeHeight` force a height for the node that is
mid-update; the JS truthiness test on `activeNodeId` makes the empty
string behave like "no active node". -/
def getGroupHeight (siblings : List CNode) (activeNodeId : Option String)
    (activeNodeHeight : Option ℚ) : ℚ :=
  let maxBottomY := siblings.foldl (fun maxB node =>
    let h : ℚ :=
      match activeNodeId, activeNodeHeight with
      | some aid, some ah => if aid ≠ "" ∧ node.id = aid then ah else getNodeHeight node
      | _, _ => getNodeHeight node
    let bottomY := node.position.y + h
    if bottomY > maxB then bottomY else maxB) 0
  jsMax (maxBottomY + LAYOUT_CONFIG.GROUP_PADDING_BOTTOM) 150

/-! ## Claim C1: stacking position of an appended child -/

theorem lowestOf_mem (first : CNode) (rest : List CNode) :
    lowestOf first rest ∈ first :: rest := by
  induction rest generalizing first with
  | nil => simp [lowestOf]
  | cons c cs ih =>
    unfold lowestOf at *
    simp only [List.foldl_cons]
    by_cases h : first.position.y > c.position.y
    · simp only [if_pos h]
      have h1 := ih first
      simp only [List.mem_cons] at h1 ⊢
      tauto
    · simp only [if_neg h]
      have h1 := ih c
      simp only [List.mem_cons] at h1 ⊢
      tauto

theorem lowestOf_ge (first : CNode) (rest : List CNode) :
    ∀ s ∈ first :: rest, s.position.y ≤ (lowestOf first rest).position.y := by
  induction rest generalizing first with
  | nil => intro s hs; simp [lowestOf] at *; simp [hs]
  | cons c cs ih =>
    intro s hs
    unfold lowestOf at *
    simp only [List.foldl_cons]
    simp only [List.mem_cons] at hs
    by_cases h : first.position.y > c.position.y
    · simp only [if_pos h]
      rcases hs with h1 | h1 | h1
      · rw [h1]; exact ih first _ (List.mem_cons_self _ _)
      · rw [h1]
        exact le_trans (le_of_lt h) (ih first _ (List.mem_cons_self _ _))
      · exact ih first _ (List.mem_cons_of_mem _ h1)
    · simp only [if_neg h]
      rcases hs with h1 | h1 | h1
      · rw [h1]
        exact le_trans (not_lt.mp h) (ih c _ (List.mem_cons_self _ _))
      · rw [h1]; exact ih c _ (List.mem_cons_self _ _)
      · exact ih c _ (List.mem_cons_of_mem _ h1)

/-- Demo child for the C1 scenario: height 100 at `y = 30` inside a
400-wide group at the origin. -/
def c1child1 : CNode :=
  { id := "child-1", type := .chatNode, position := ⟨20, 30⟩,
    styleWidth := some 360, styleHeight := some (.num 100),
    width := none, height := none,
    parentNode := some "group-1", selected := false, isLast := true }

/-- Demo child appended by the C1 scenario: height 150 at the computed
`y = 145`. -/
def c1child2 : CNode :=
  { id := "child-2", type := .chatNode, position := ⟨20, 145⟩,
    styleWidth := some 360, styleHeight := some (.num 150),
    width := none, height := none,
    parentNode := some "group-1", selected := false, isLast := true }

/-- C1: `getNextNodeY` returns the top padding (30) for an empty group and
otherwise the lowest sibling's `y` plus that sibling's effective height
plus the fixed gap (15); in the concrete scenario (one child of height 100
at `y = 30`) the appended child of height 150 lands at `y = 145` and the
recomputed group height over both children is `310`. -/
theorem claim_C1 (siblings : List CNode) (hne : siblings ≠ []) :
    getNextNodeY [] = LAYOUT_CONFIG.GROUP_PADDING_TOP ∧
    (∃ m, m ∈ siblings ∧ (∀ s ∈ siblings, s.position.y ≤ m.position.y) ∧
      getNextNodeY siblings =
        m.position.y + getNodeHeight m + LAYOUT_CONFIG.NODE_GAP) ∧
    getNextNodeY [c1child1] = 145 ∧
    getGroupHeight [c1child1, c1child2] none none = 310 := by
  refine ⟨rfl, ?_, ?_, ?_⟩
  · match siblings, hne with
    | first :: rest, _ =>
      exact ⟨lowestOf first rest, lowestOf_mem first rest, lowestOf_ge first rest,
        rfl⟩
  · norm_num [getNextNodeY, lowestOf, getNodeHeight, c1child1,
      LAYOUT_CONFIG.NODE_GAP]
  · norm_num [getGroupHeight, getNodeHeight, c1child1, c1child2, jsMax,
      LAYOUT_CONFIG.GROUP_PADDING_BOTTOM]

/-- Witness for C1 at the concrete one-child group of the scenario. -/
theorem claim_C1_witness :
    ([c1child1] ≠ []) ∧
    (getNextNodeY [] = LAYOUT_CONFIG.GROUP_PADDING_TOP ∧
      (∃ m, m ∈ [c1child1] ∧ (∀ s ∈ [c1child1], s.position.y ≤ m.position.y) ∧
        getNextNodeY [c1child1] =
          m.position.y + getNodeHeight m + LAYOUT_CONFIG.NODE_GAP) ∧
      getNextNodeY [c1child1] = 145 ∧
      getGroupHeight [c1child1, c1child2] none none = 310) :=
  ⟨by simp, claim_C1 [c1child1] (by simp)⟩

/-! ## `LayoutUtils.rearrangeGroup` (`src/layouts/MainLayout.tsx`, the
layoutUtils revision bundled there, lines 170–224) -/

/-- Boolean predicate `n.parentNode === groupId`. -/
def isChildOf (gid : String) (n : CNode) : Bool := n.parentNode = some gid

/-- Boolean predicate `n.id === groupId`. -/
def hasId (gid : String) (n : CNode) : Bool := n.id = gid

/-- The Y-update `Map` built by `rearrangeGroup`'s stacking loop: the
entries `(node.id, currentY)` in visit order, with
`currentY += getNodeHeight(node) + NODE_GAP` between visits. -/
def stackUpdates (sorted : List CNode) (currentY : ℚ) : List (String × ℚ) :=
  match sorted with
  | [] => []
  | n :: rest =>
    (n.id, currentY) ::
      stackUpdates rest (currentY + getNodeHeight n + LAYOUT_CONFIG.NODE_GAP)

/-- The final accumulator value of the stacking loop. -/
def stackFinalY (sorted : List CNode) (currentY : ℚ) : ℚ :=
  match sorted with
  | [] => currentY
  | n :: rest => stackFinalY rest (currentY + getNodeHeight n + LAYOUT_CONFIG.NODE_GAP)

/-- `Map.get` after the sequence of `Map.set`s recorded in a list: the
last `set` for a key wins. -/
def lookupLast (updates : List (String × ℚ)) (k : String) : Option ℚ :=
  match updates with
  | [] => none
  | p :: rest =>
    match lookupLast rest k with
    | some v => some v
    | none => if p.1 = k then some p.2 else none

/-- `Array.prototype.sort` with comparator
`(a, b) => a.position.y - b.position.y` — a stable sort by `position.y`. -/
def sortByY (siblings : List CNode) : List CNode :=
  siblings.mergeSort (fun a b => a.position.y ≤ b.position.y)

/-- The per-node map of `rearrangeGroup`'s final `allNodes.map` (lines
202–223): children found in the updates map get their new `y`; the group
node gets the new height in both `style.height` and `height`; everything
else is returned unchanged. -/
def rearrangeUpdate (updates : List (String × ℚ)) (newGroupHeight : ℚ)
    (groupId : String) (node : CNode) : CNode :=
  match lookupLast updates node.id with
  | some y => { node with position := { node.position with y := y } }
  | none =>
    if node.id = groupId then
      { node with styleHeight := some (.num newGroupHeight),
                  height := some newGroupHeight }
    else node

/-- `LayoutUtils.rearrangeGroup` (`src/layouts/MainLayout.tsx` lines
170–224): sort the group's children by current `y`, re-stack them from
the top padding, and write the resulting height to the group node. -/
def rearrangeGroup (allNodes : List CNode) (groupId : String) : List CNode :=
  let siblings := allNodes.filter (isChildOf groupId)
  match allNodes.find? (hasId groupId) with
  | none => allNodes
  | some _ =>
    if siblings.isEmpty then allNodes
    else
      let sorted := sortByY siblings
      let updates := stackUpdates sorted LAYOUT_CONFIG.GROUP_PADDING_TOP
      let newGroupHeight :=
        jsMax (stackFinalY sorted LAYOUT_CONFIG.GROUP_PADDING_TOP
                 - LAYOUT_CONFIG.NODE_GAP + LAYOUT_CONFIG.GROUP_PADDING_BOTTOM)
          150
      allNodes.map (rearrangeUpdate updates newGroupHeight groupId)

/-! ## Claim C2: idempotence of group compaction -/

/-- C2 counterexample collection: a group `g` whose child `a` has a
negative effective height (a negative numeric `style.height`), so the
first compaction places the next child above it and the second compaction
re-sorts them. -/
def c2group : CNode :=
  { id := "g", type := .groupNode, position := ⟨0, 0⟩,
    styleWidth := some 400, styleHeight := some (.num 300),
    width := none, height := none,
    parentNode := none, selected := false, isLast := false }

def c2childA : CNode :=
  { id := "a", type := .chatNode, position := ⟨20, 0⟩,
    styleWidth := some 360, styleHeight := some (.num (-100)),
    width := none, height := none,
    parentNode := some "g", selected := false, isLast := false }

def c2childB : CNode :=
  { id := "b", type := .chatNode, position := ⟨20, 10⟩,
    styleWidth := some 360, styleHeight := some (.num 0),
    width := none, height := none,
    parentNode := some "g", selected := false, isLast := true }

def c2nodes : List CNode := [c2group, c2childA, c2childB]

/-- The collection `c2nodes` after one compaction. -/
def c2nodes1 : List CNode :=
  [{ c2group with styleHeight := some (.num 150), height := some 150 },
    { c2childA with position := ⟨20, 30⟩ },
    { c2childB with position := ⟨20, -55⟩ }]

/-- The collection `c2nodes` after two compactions. -/
def c2nodes2 : List CNode :=
  [{ c2group with styleHeight := some (.num 150), height := some 150 },
    { c2childA with position := ⟨20, 45⟩ },
    { c2childB with position := ⟨20, 30⟩ }]

theorem c2_pass1 : rearrangeGroup c2nodes "g" = c2nodes1 := by
  have hfil : c2nodes.filter (isChildOf "g") = [c2childA, c2childB] := by decide
  have hfind : c2nodes.find? (hasId "g") = some c2group := by decide
  have hsort : sortByY [c2childA, c2childB] = [c2childA, c2childB] := by
    norm_num [sortByY, List.mergeSort, List.merge, c2childA, c2childB]
  simp only [rearrangeGroup, hfil, hfind, hsort]
  norm_num [c2nodes, c2nodes1, c2group, c2childA, c2childB, stackUpdates,
    stackFinalY, lookupLast, rearrangeUpdate, getNodeHeight,
    getNodeHeightFallback, jsMax, LAYOUT_CONFIG.GROUP_PADDING_TOP,
    LAYOUT_CONFIG.NODE_GAP, LAYOUT_CONFIG.GROUP_PADDING_BOTTOM]
  decide

theorem c2_pass2 : rearrangeGroup c2nodes1 "g" = c2nodes2 := by
  have hfil : c2nodes1.filter (isChildOf "g") =
      [{ c2childA with position := ⟨20, 30⟩ },
        { c2childB with position := ⟨20, -55⟩ }] := by decide
  have hfind : c2nodes1.find? (hasId "g") =
      some { c2group with styleHeight := some (.num 150), height := some 150 } := by
    decide
  have hsort : sortByY
      [{ c2childA with position := ⟨20, 30⟩ },
        { c2childB with position := ⟨20, -55⟩ }] =
      [{ c2childB with position := ⟨20, -55⟩ },
        { c2childA with position := ⟨20, 30⟩ }] := by
    norm_num [sortByY, List.mergeSort, List.merge, c2childA, c2childB]
  simp only [rearrangeGroup, hfil, hfind, hsort]
  norm_num [c2nodes1, c2nodes2, c2group, c2childA, c2childB, stackUpdates,
    stackFinalY, lookupLast, rearrangeUpdate, getNodeHeight,
    getNodeHeightFallback, jsMax, LAYOUT_CONFIG.GROUP_PADDING_TOP,
    LAYOUT_CONFIG.NODE_GAP, LAYOUT_CONFIG.GROUP_PADDING_BOTTOM]
  decide

/-- C2 counterexample: on `c2nodes` a second application of
`rearrangeGroup` moves child `a` again (from `y = 30` to `y = 45`), so
compaction is not idempotent for arbitrary collections. -/
theorem claim_C2_counterexample :
    ¬ (rearrangeGroup (rearrangeGroup c2nodes "g") "g" = rearrangeGroup c2nodes "g") := by
  intro h
  rw [c2_pass1, c2_pass2] at h
  have h45 := congrArg (fun l => (l.get? 1).map (fun n => n.position.y)) h
  norm_num [c2nodes1, c2nodes2, c2childA] at h45

/-! ### Helper lemmas for the amended C2 -/

theorem rearrangeUpdate_id (u : List (String × ℚ)) (H : ℚ) (g : String) (n : CNode) :
    (rearrangeUpdate u H g n).id = n.id := by
  unfold rearrangeUpdate
  cases lookupLast u n.id <;> simp <;> split <;> simp

theorem rearrangeUpdate_parentNode (u : List (String × ℚ)) (H : ℚ) (g : String) (n : CNode) :
    (rearrangeUpdate u H g n).parentNode = n.parentNode := by
  unfold rearrangeUpdate
  cases lookupLast u n.id <;> simp <;> split <;> simp

theorem stackUpdates_keys (l : List CNode) (y : ℚ) :
    (stackUpdates l y).map Prod.fst = l.map CNode.id := by
  induction l generalizing y with
  | nil => simp [stackUpdates]
  | cons n rest ih => simp [stackUpdates, ih]

theorem lookupLast_eq_none (u : List (String × ℚ)) (k : String)
    (h : k ∉ u.map Prod.fst) : lookupLast u k = none := by
  induction u with
  | nil => rfl
  | cons p rest ih =>
    simp only [List.map_cons, List.mem_cons] at h
    push_neg at h
    simp only [lookupLast, ih h.2]
    rw [if_neg (fun hc => h.1 (Eq.symm hc))]

theorem lookupLast_append (u v : List (String × ℚ)) (k : String) :
    lookupLast (u ++ v) k =
      match lookupLast v k with
      | some x => some x
      | none => lookupLast u k := by
  induction u with
  | nil => simp only [List.nil_append, lookupLast]; cases lookupLast v k <;> rfl
  | cons p rest ih =>
    cases hv : lookupLast v k <;> cases hr : lookupLast rest k <;>
      simp [List.cons_append, lookupLast, ih, hv, hr]

/-- The result of re-stacking a sorted child list from `y0`: each node is
moved to the running `currentY`. -/
def stackPlace (l : List CNode) (y0 : ℚ) : List CNode :=
  match l with
  | [] => []
  | n :: rest =>
    { n with position := { n.position with y := y0 } } ::
      stackPlace rest (y0 + getNodeHeight n + LAYOUT_CONFIG.NODE_GAP)

theorem getNodeHeight_set_pos (n : CNode) (p : Pt) :
    getNodeHeight { n with position := p } = getNodeHeight n := rfl

theorem map_rearrangeUpdate_stack (H : ℚ) (g : String) :
    ∀ (l : List CNode) (u0 : List (String × ℚ)) (y0 : ℚ),
    (l.map CNode.id).Nodup →
    (∀ k ∈ u0.map Prod.fst, k ∉ l.map CNode.id) →
    l.map (rearrangeUpdate (u0 ++ stackUpdates l y0) H g) = stackPlace l y0 := by
  intro l
  induction l with
  | nil => intro u0 y0 _ _; simp [stackPlace]
  | cons n rest ih =>
    intro u0 y0 hnd hdisj
    simp only [List.map_cons, List.nodup_cons] at hnd ⊢
    have hn : n.id ∉ rest.map CNode.id := hnd.1
    have hsplit : u0 ++ stackUpdates (n :: rest) y0 =
        (u0 ++ [(n.id, y0)]) ++
          stackUpdates rest (y0 + getNodeHeight n + LAYOUT_CONFIG.NODE_GAP) := by
      simp [stackUpdates, List.append_assoc]
    rw [hsplit]
    simp only [stackPlace, List.cons.injEq]
    constructor
    · unfold rearrangeUpdate
      have h1 : lookupLast
          (stackUpdates rest (y0 + getNodeHeight n + LAYOUT_CONFIG.NODE_GAP)) n.id = none := by
        apply lookupLast_eq_none
        rw [stackUpdates_keys]; exact hn
      have h2 : lookupLast (u0 ++ [(n.id, y0)]) n.id = some y0 := by
        rw [lookupLast_append]; simp [lookupLast]
      rw [lookupLast_append]
      simp [h1, h2]
    · refine ih (u0 ++ [(n.id, y0)]) (y0 + getNodeHeight n + LAYOUT_CONFIG.NODE_GAP)
        hnd.2 ?_
      intro k hk
      simp only [List.map_append, List.mem_append, List.map_cons] at hk
      rcases hk with hk | hk
      · exact fun hmem => hdisj k hk (by simp [hmem])
      · simp at hk; rw [hk]; exact hn

theorem stackPlace_y_lb (l : List CNode) (y0 : ℚ)
    (hh : ∀ n ∈ l, 0 ≤ getNodeHeight n) :
    ∀ m ∈ stackPlace l y0, y0 ≤ m.position.y := by
  induction l generalizing y0 with
  | nil => simp [stackPlace]
  | cons n rest ih =>
    intro m hm
    simp only [stackPlace, List.mem_cons] at hm
    rcases hm with hm | hm
    · rw [hm]
    · have h0 : 0 ≤ getNodeHeight n := hh n (by simp)
      have := ih (y0 + getNodeHeight n + LAYOUT_CONFIG.NODE_GAP)
        (fun x hx => hh x (by simp [hx])) m hm
      have : y0 + 0 + 0 ≤ y0 + getNodeHeight n + LAYOUT_CONFIG.NODE_GAP := by
        have : (0:ℚ) ≤ LAYOUT_CONFIG.NODE_GAP := by norm_num [LAYOUT_CONFIG.NODE_GAP]
        gcongr
      linarith [ih (y0 + getNodeHeight n + LAYOUT_CONFIG.NODE_GAP)
        (fun x hx => hh x (by simp [hx])) m hm]

theorem stackPlace_strict (l : List CNode) (y0 : ℚ)
    (hh : ∀ n ∈ l, 0 ≤ getNodeHeight n) :
    List.Pairwise (fun a b => a.position.y < b.position.y) (stackPlace l y0) := by
  induction l generalizing y0 with
  | nil => simp [stackPlace]
  | cons n rest ih =>
    simp only [stackPlace, List.pairwise_cons]
    constructor
    · intro m hm
      have hlb := stackPlace_y_lb rest (y0 + getNodeHeight n + LAYOUT_CONFIG.NODE_GAP)
        (fun x hx => hh x (by simp [hx])) m hm
      have h0 : 0 ≤ getNodeHeight n := hh n (by simp)
      have hgap : (0:ℚ) < LAYOUT_CONFIG.NODE_GAP := by norm_num [LAYOUT_CONFIG.NODE_GAP]
      show y0 < m.position.y
      linarith
    · exact ih _ (fun x hx => hh x (by simp [hx]))

theorem stackUpdates_stackPlace (l : List CNode) (y' y0 : ℚ) :
    stackUpdates (stackPlace l y') y0 = stackUpdates l y0 := by
  induction l generalizing y' y0 with
  | nil => rfl
  | cons n rest ih => simp [stackPlace, stackUpdates, getNodeHeight_set_pos, ih]

theorem stackFinalY_stackPlace (l : List CNode) (y' y0 : ℚ) :
    stackFinalY (stackPlace l y') y0 = stackFinalY l y0 := by
  induction l generalizing y' y0 with
  | nil => rfl
  | cons n rest ih => simp [stackPlace, stackFinalY, getNodeHeight_set_pos, ih]

theorem rearrangeUpdate_idem (u : List (String × ℚ)) (H : ℚ) (g : String) (n : CNode) :
    rearrangeUpdate u H g (rearrangeUpdate u H g n) = rearrangeUpdate u H g n := by
  unfold rearrangeUpdate
  cases hl : lookupLast u n.id with
  | some y => simp [hl]
  | none =>
    by_cases hg : n.id = g
    · rw [hg] at hl
      simp [hl, hg]
    · simp [hl, hg]

/-- The per-node update function that one `rearrangeGroup` pass applies
(with the updates map and new height computed from the current
collection). -/
def compactMap (nodes : List CNode) (gid : String) : CNode → CNode :=
  rearrangeUpdate
    (stackUpdates (sortByY (nodes.filter (isChildOf gid)))
      LAYOUT_CONFIG.GROUP_PADDING_TOP)
    (jsMax (stackFinalY (sortByY (nodes.filter (isChildOf gid)))
        LAYOUT_CONFIG.GROUP_PADDING_TOP
      - LAYOUT_CONFIG.NODE_GAP + LAYOUT_CONFIG.GROUP_PADDING_BOTTOM) 150)
    gid

theorem compactMap_id (nodes : List CNode) (gid : String) (n : CNode) :
    (compactMap nodes gid n).id = n.id := rearrangeUpdate_id _ _ _ _

theorem compactMap_parentNode (nodes : List CNode) (gid : String) (n : CNode) :
    (compactMap nodes gid n).parentNode = n.parentNode :=
  rearrangeUpdate_parentNode _ _ _ _

/-- One-step characterisation of `rearrangeGroup` when the group exists
and has children. -/
theorem rearrangeGroup_eq_map (nodes : List CNode) (gid : String) (g : CNode)
    (hfind : nodes.find? (hasId gid) = some g)
    (hne : nodes.filter (isChildOf gid) ≠ []) :
    rearrangeGroup nodes gid = nodes.map (compactMap nodes gid) := by
  unfold compactMap
  simp only [rearrangeGroup, hfind]
  rw [if_neg (by simpa [List.isEmpty_iff] using hne)]

/-- C2, amended: compaction is idempotent for collections whose node ids
are pairwise distinct and whose children in the compacted group all have
nonnegative effective heights. -/
theorem claim_C2_amended (nodes : List CNode) (gid : String)
    (hids : (nodes.map CNode.id).Nodup)
    (hh : ∀ n ∈ nodes, n.parentNode = some gid → 0 ≤ getNodeHeight n) :
    rearrangeGroup (rearrangeGroup nodes gid) gid = rearrangeGroup nodes gid := by
  cases hfind : nodes.find? (hasId gid) with
  | none =>
    have h0 : rearrangeGroup nodes gid = nodes := by
      simp [rearrangeGroup, hfind]
    rw [h0]; exact h0
  | some g =>
    by_cases hS : nodes.filter (isChildOf gid) = []
    · have h0 : rearrangeGroup nodes gid = nodes := by
        simp [rearrangeGroup, hfind, hS]
      rw [h0]; exact h0
    · -- the interesting case: the group exists and has children
      have hle_trans : ∀ a b c : CNode,
          (fun a b : CNode => decide (a.position.y ≤ b.position.y)) a b = true →
          (fun a b : CNode => decide (a.position.y ≤ b.position.y)) b c = true →
          (fun a b : CNode => decide (a.position.y ≤ b.position.y)) a c = true := by
        intro a b c h1 h2
        simp only [decide_eq_true_eq] at h1 h2 ⊢
        exact le_trans h1 h2
      have hle_total : ∀ a b : CNode,
          ((fun a b : CNode => decide (a.position.y ≤ b.position.y)) a b ||
           (fun a b : CNode => decide (a.position.y ≤ b.position.y)) b a) = true := by
        intro a b
        simp only [Bool.or_eq_true, decide_eq_true_eq]
        exact le_total _ _
      have hperm : (sortByY (nodes.filter (isChildOf gid))).Perm
          (nodes.filter (isChildOf gid)) := List.mergeSort_perm _ _
      have hSsub : ((nodes.filter (isChildOf gid)).map CNode.id).Sublist
          (nodes.map CNode.id) := (List.filter_sublist nodes).map CNode.id
      have hSnd : ((nodes.filter (isChildOf gid)).map CNode.id).Nodup :=
        hids.sublist hSsub
      have hsortednd : ((sortByY (nodes.filter (isChildOf gid))).map CNode.id).Nodup :=
        ((hperm.map CNode.id).nodup_iff).mpr hSnd
      have hhS : ∀ n ∈ sortByY (nodes.filter (isChildOf gid)), 0 ≤ getNodeHeight n := by
        intro n hn
        have hnS : n ∈ nodes.filter (isChildOf gid) := hperm.mem_iff.mp hn
        have hp := List.of_mem_filter (p := isChildOf gid) hnS
        exact hh n (List.mem_of_mem_filter hnS) (by simpa [isChildOf] using hp)
      have hout : rearrangeGroup nodes gid = nodes.map (compactMap nodes gid) :=
        rearrangeGroup_eq_map nodes gid g hfind hS
      -- pass 1 places the sorted siblings at the stacked positions
      have hplace : (sortByY (nodes.filter (isChildOf gid))).map (compactMap nodes gid) =
          stackPlace (sortByY (nodes.filter (isChildOf gid)))
            LAYOUT_CONFIG.GROUP_PADDING_TOP := by
        unfold compactMap
        simpa using map_rearrangeUpdate_stack
          (jsMax (stackFinalY (sortByY (nodes.filter (isChildOf gid)))
              LAYOUT_CONFIG.GROUP_PADDING_TOP
            - LAYOUT_CONFIG.NODE_GAP + LAYOUT_CONFIG.GROUP_PADDING_BOTTOM) 150)
          gid (sortByY (nodes.filter (isChildOf gid))) []
          LAYOUT_CONFIG.GROUP_PADDING_TOP hsortednd (by simp)
      -- pass 2 sees the same group and the same (already stacked) children
      have hfind2 : (nodes.map (compactMap nodes gid)).find? (hasId gid) =
          some (compactMap nodes gid g) := by
        rw [List.find?_map]
        have heq : (hasId gid ∘ compactMap nodes gid) = hasId gid :=
          funext fun n => by simp [hasId, Function.comp, compactMap_id]
        rw [heq, hfind]; rfl
      have hfilter2 : (nodes.map (compactMap nodes gid)).filter (isChildOf gid) =
          (nodes.filter (isChildOf gid)).map (compactMap nodes gid) := by
        rw [List.filter_map]
        have heq : (isChildOf gid ∘ compactMap nodes gid) = isChildOf gid :=
          funext fun n => by simp [isChildOf, Function.comp, compactMap_parentNode]
        rw [heq]
      have hne2 : (nodes.map (compactMap nodes gid)).filter (isChildOf gid) ≠ [] := by
        rw [hfilter2]
        intro hc
        exact hS (List.map_eq_nil.mp hc)
      -- the second sort returns exactly the stacked list
      have hstrict : List.Pairwise (fun a b : CNode => a.position.y < b.position.y)
          (stackPlace (sortByY (nodes.filter (isChildOf gid)))
            LAYOUT_CONFIG.GROUP_PADDING_TOP) :=
        stackPlace_strict _ _ hhS
      have hpermC : (sortByY ((nodes.filter (isChildOf gid)).map (compactMap nodes gid))).Perm
          (stackPlace (sortByY (nodes.filter (isChildOf gid)))
            LAYOUT_CONFIG.GROUP_PADDING_TOP) := by
        have p1 : (sortByY ((nodes.filter (isChildOf gid)).map (compactMap nodes gid))).Perm
            ((nodes.filter (isChildOf gid)).map (compactMap nodes gid)) :=
          List.mergeSort_perm _ _
        have p2 : ((nodes.filter (isChildOf gid)).map (compactMap nodes gid)).Perm
            ((sortByY (nodes.filter (isChildOf gid))).map (compactMap nodes gid)) :=
          (hperm.map (compactMap nodes gid)).symm
        rw [hplace] at p2
        exact p1.trans p2
      have hysNodupPlace :
          ((stackPlace (sortByY (nodes.filter (isChildOf gid)))
            LAYOUT_CONFIG.GROUP_PADDING_TOP).map
              (fun n => n.position.y)).Nodup := by
        have hpw : List.Pairwise (fun x y : ℚ => x < y)
            ((stackPlace (sortByY (nodes.filter (isChildOf gid)))
              LAYOUT_CONFIG.GROUP_PADDING_TOP).map
                (fun n => n.position.y)) :=
          List.pairwise_map.mpr hstrict
        exact hpw.imp ne_of_lt
      have hysNodup2 :
          ((sortByY ((nodes.filter (isChildOf gid)).map (compactMap nodes gid))).map
            (fun n => n.position.y)).Nodup :=
        ((hpermC.map (fun n => n.position.y)).nodup_iff).mpr hysNodupPlace
      have hne_pw : List.Pairwise (fun a b : CNode => a.position.y ≠ b.position.y)
          (sortByY ((nodes.filter (isChildOf gid)).map (compactMap nodes gid))) :=
        List.pairwise_map.mp hysNodup2
      have hle_pw : List.Pairwise (fun a b : CNode => a.position.y ≤ b.position.y)
          (sortByY ((nodes.filter (isChildOf gid)).map (compactMap nodes gid))) := by
        have hs := List.sorted_mergeSort hle_trans hle_total
          ((nodes.filter (isChildOf gid)).map (compactMap nodes gid))
        exact hs.imp (by intro a b hab; exact of_decide_eq_true hab)
      have hlt_pw : List.Pairwise (fun a b : CNode => a.position.y < b.position.y)
          (sortByY ((nodes.filter (isChildOf gid)).map (compactMap nodes gid))) :=
        (hle_pw.and hne_pw).imp (fun h => lt_of_le_of_ne h.1 h.2)
      have hsorted2 : sortByY ((nodes.filter (isChildOf gid)).map (compactMap nodes gid)) =
          stackPlace (sortByY (nodes.filter (isChildOf gid)))
            LAYOUT_CONFIG.GROUP_PADDING_TOP := by
        haveI : IsAntisymm CNode (fun a b : CNode => a.position.y < b.position.y) :=
          ⟨fun a b h1 h2 => absurd h2 (lt_asymm h1)⟩
        exact List.eq_of_perm_of_sorted hpermC hlt_pw hstrict
      -- hence the second pass applies exactly the same per-node update
      have hfun : compactMap (nodes.map (compactMap nodes gid)) gid =
          compactMap nodes gid := by
        generalize hcm : compactMap nodes gid = cm at hfilter2 hsorted2 ⊢
        unfold compactMap
        rw [hfilter2, hsorted2, stackUpdates_stackPlace, stackFinalY_stackPlace,
          ← hcm]
        unfold compactMap
        rfl
      have hout2 : rearrangeGroup (nodes.map (compactMap nodes gid)) gid =
          (nodes.map (compactMap nodes gid)).map (compactMap nodes gid) := by
        rw [rearrangeGroup_eq_map (nodes.map (compactMap nodes gid)) gid
          (compactMap nodes gid g) hfind2 hne2, hfun]
      rw [hout, hout2, List.map_map]
      apply List.map_congr_left
      intro n _
      exact rearrangeUpdate_idem _ _ _ n

/-- Witness collection for the amended C2: distinct ids and nonnegative
child heights. -/
def c2goodNodes : List CNode :=
  [c2group,
    { c2childA with styleHeight := some (.num 100) },
    { c2childB with styleHeight := some (.num 150) }]

/-- Witness for the amended C2, at a concrete well-formed collection. -/
theorem claim_C2_amended_witness :
    (c2goodNodes.map CNode.id).Nodup ∧
    rearrangeGroup (rearrangeGroup c2goodNodes "g") "g" =
      rearrangeGroup c2goodNodes "g" :=
  ⟨by decide, claim_C2_amended c2goodNodes "g" (by decide)
    (by
      intro n hn _
      fin_cases hn <;> norm_num [getNodeHeight, c2group, c2childA, c2childB,
        c2goodNodes, getNodeHeightFallback, jsOrOpt, jsOr,
        LAYOUT_CONFIG.DEFAULT_NODE_HEIGHT])⟩

/-! ## `src/hooks/useFlowInteractions.ts` — the drag classifier & mutator -/

/-- The local `getNodeHeight` of `useFlowInteractions.ts` (lines 28–33).
It differs from the layoutUtils one: only `"100%"` is excluded (the
source would return `parseInt("auto") = NaN` for an `"auto"` string;
`NaN` heights are outside this embedding, which falls back to the
measured height there like the layoutUtils sibling — no theorem below
depends on an `"auto"` style height), and the fallback is
`node.height || LAYOUT_CONFIG.DEFAULT_NODE_HEIGHT` without the extra
`|| 100`. -/
def getNodeHeightHook (n : CNode) : ℚ :=
  match n.styleHeight with
  | some (CssDim.num v) => v
  | some (CssDim.strPx v) => (v : ℚ)
  | some CssDim.pct100 => jsOrOpt n.height LAYOUT_CONFIG.DEFAULT_NODE_HEIGHT
  | some CssDim.auto => jsOrOpt n.height LAYOUT_CONFIG.DEFAULT_NODE_HEIGHT
  | none => jsOrOpt n.height LAYOUT_CONFIG.DEFAULT_NODE_HEIGHT

/-- `(node.style?.width as number) || d`. -/
def styleWidthOr (n : CNode) (d : ℚ) : ℚ :=
  match n.styleWidth with
  | some w => jsOr w d
  | none => d

/-- `(node.style?.height as number) || d` as used in the collision tests:
`some h` when the expression is a usable number, `none` when
`style.height` is a non-numeric string (in JS every `<`/`>` comparison
against it is then `false`, which the call sites model by treating the
test as failed). -/
def styleHeightOrNum (n : CNode) (d : ℚ) : Option ℚ :=
  match n.styleHeight with
  | some (CssDim.num v) => some (jsOr v d)
  | some _ => none
  | none => some d

/-- Constants local to `useFlowInteractions.ts` (lines 36–38). -/
def DEFAULT_GROUP_WIDTH : ℚ := LAYOUT_CONFIG.GROUP_WIDTH

def PADDING_X : ℚ := 40

def DEFAULT_CHILD_WIDTH : ℚ := DEFAULT_GROUP_WIDTH - PADDING_X

/-- An edge as the drag handler sees it. -/
structure CEdge where
  id : String
  source : String
  target : String
  sourceHandle : Option String
  targetHandle : Option String
  selected : Bool
deriving DecidableEq, Repr

/-- The immutable node/edge collections. -/
structure FlowState where
  nodes : List CNode
  edges : List CEdge
deriving DecidableEq, Repr

/-- The collision predicate of the MERGE scan
(`useFlowInteractions.ts` lines 282–289): the drag center against a
group's stored rectangle, using the group's own `style` width/height
(with fallbacks 400 and 300). -/
def groupContains (cursorX cursorY : ℚ) (n : CNode) : Bool :=
  if n.type ≠ NType.groupNode then false
  else
    let gW := styleWidthOr n DEFAULT_GROUP_WIDTH
    match styleHeightOrNum n 300 with
    | none => false
    | some gH =>
      decide (cursorX > n.position.x) && decide (cursorX < n.position.x + gW) &&
      decide (cursorY > n.position.y) && decide (cursorY < n.position.y + gH)

/-- The out-of-bounds test of the SPLIT decision (lines 294–299), against
the original group's rectangle. -/
def isOutOfGroup (cursorX cursorY : ℚ) (oldGroup : CNode) : Bool :=
  let gW := styleWidthOr oldGroup DEFAULT_GROUP_WIDTH
  let relCursorX := cursorX - oldGroup.position.x
  let relCursorY := cursorY - oldGroup.position.y
  decide (relCursorX < 0) || decide (relCursorX > gW) || decide (relCursorY < 0) ||
    (match styleHeightOrNum oldGroup 300 with
     | none => false
     | some gH => decide (relCursorY > gH))

/-- The three terminal drag outcomes (lines 278–301); MERGE carries the
first containing group found. -/
inductive DragAction where
  | SNAP
  | MERGE (target : CNode)
  | SPLIT
deriving DecidableEq, Repr

/-- The classification step of `handleNodeDragStop` (lines 278–301): the
first group containing the center (in collection iteration order) is the
MERGE target; otherwise SPLIT when the center left the original group's
rectangle, else SNAP. -/
def classifyDrag (nodes : List CNode) (cursorX cursorY : ℚ)
    (oldGroup : CNode) : DragAction :=
  match nodes.find? (groupContains cursorX cursorY) with
  | some g => DragAction.MERGE g
  | none =>
    if isOutOfGroup cursorX cursorY oldGroup then DragAction.SPLIT
    else DragAction.SNAP

/-- The re-stacking loop of the handler's local `compactGroup` (lines
356–371): positions at `x = 20`, running `y`, forced child width, and
`isLast` on the final sibling. -/
def restackSiblings (sorted : List CNode) (childWidth : ℚ) (currentY : ℚ) :
    List CNode :=
  match sorted with
  | [] => []
  | sib :: rest =>
    { sib with position := ⟨20, currentY⟩,
               styleWidth := some childWidth,
               isLast := rest.isEmpty } ::
      restackSiblings rest childWidth
        (currentY + getNodeHeightHook sib + LAYOUT_CONFIG.NODE_GAP)

/-- Final `currentY` of the same loop (for the new group height). -/
def restackFinalY (sorted : List CNode) (currentY : ℚ) : ℚ :=
  match sorted with
  | [] => currentY
  | sib :: rest =>
    restackFinalY rest (currentY + getNodeHeightHook sib + LAYOUT_CONFIG.NODE_GAP)

/-- The handler's local `compactGroup` closure (lines 341–383): collects
the group's siblings (minus the dragged node, plus the dragged draft when
it now belongs here and the action is not SPLIT), sorts by `y`, re-stacks,
and returns the updated group followed by the updated siblings — the
nodes it pushes onto `nextNodes`.  An empty sibling list contributes
nothing. -/
def compactPieces (nds : List CNode) (draft : CNode) (isSplit : Bool)
    (draggingNodeId : String) (groupId : String)
    (originalGroupNode : CNode) : List CNode :=
  let baseSiblings := nds.filter (fun n =>
    decide (n.parentNode = some groupId) && !(decide (n.id = draggingNodeId)))
  let siblings :=
    if draft.parentNode = some groupId ∧ isSplit = false
    then baseSiblings ++ [draft] else baseSiblings
  if siblings.isEmpty then []
  else
    let currentGroupWidth := styleWidthOr originalGroupNode DEFAULT_GROUP_WIDTH
    let currentChildWidth := currentGroupWidth - PADDING_X
    let sorted := sortByY siblings
    let newHeight := restackFinalY sorted LAYOUT_CONFIG.GROUP_PADDING_TOP
      - LAYOUT_CONFIG.NODE_GAP + LAYOUT_CONFIG.GROUP_PADDING_BOTTOM
    { originalGroupNode with
        styleHeight := some (.num newHeight),
        styleWidth := some currentGroupWidth } ::
      restackSiblings sorted currentChildWidth LAYOUT_CONFIG.GROUP_PADDING_TOP

/-- `exW` of the SPLIT collision loop (line 405). -/
def splitGroupW (ex : CNode) : ℚ := styleWidthOr ex DEFAULT_GROUP_WIDTH

/-- The overlap test of the SPLIT collision loop (line 407). -/
def splitCollides (tY newGroupH tX : ℚ) (ex : CNode) : Bool :=
  !(decide (tX + DEFAULT_GROUP_WIDTH < ex.position.x) ||
    decide (tX > ex.position.x + splitGroupW ex) ||
    decide (tY + newGroupH < ex.position.y) ||
    (match styleHeightOrNum ex 300 with
     | none => false
     | some exH => decide (tY > ex.position.y + exH)))

/-- The first colliding group of one pass over `nextNodes` (lines
403–412): non-group nodes are skipped, the first overlap breaks. -/
def findCollision (nds : List CNode) (tY newGroupH tX : ℚ) : Option CNode :=
  nds.find? (fun ex =>
    decide (ex.type = NType.groupNode) && splitCollides tY newGroupH tX ex)

/-- One pass of the SPLIT nudge loop: no collision keeps `tX`; a
collision shifts to the colliding group's right edge plus the 30px
margin. -/
def nudgeStep (nds : List CNode) (tY newGroupH : ℚ) (tX : ℚ) : ℚ :=
  match findCollision nds tY newGroupH tX with
  | none => tX
  | some ex => ex.position.x + splitGroupW ex + 30

/-- The bounded SPLIT nudge loop (`while(collision && loop < 50)`,
lines 399–414), as fuelled recursion: the handler runs it with fuel 50
and accepts the current `tX` when the fuel is exhausted. -/
def nudgeLoop (nds : List CNode) (tY newGroupH : ℚ) :
    Nat → ℚ → ℚ
  | 0, tX => tX
  | fuel + 1, tX =>
    match findCollision nds tY newGroupH tX with
    | none => tX
    | some ex => nudgeLoop nds tY newGroupH fuel (ex.position.x + splitGroupW ex + 30)

/-- Modelled from the spec: `NodeFactory.createGroup`.  The factory
module `src/utils/nodeFactory.ts` is not among the provided sources (only
its call sites are); the spec's data model says a new group is a canvas
node of kind `group` at the given position, and the SPLIT branch then
overwrites its `style` width/height.  Geometry-irrelevant payload (label
text, callbacks) is not modelled. -/
def createGroup (id : String) (pos : Pt) : CNode :=
  { id := id, type := .groupNode, position := pos,
    styleWidth := none, styleHeight := none, width := none, height := none,
    parentNode := none, selected := false, isLast := false }

/-- The `setNodes` functional update of `handleNodeDragStop` (lines
317–430): drop the dirty groups, their children and the dragged node;
re-add the compacted old group (and target group on a cross-group
MERGE); on SPLIT run the collision nudge and append the fresh group and
the reparented dragged node. -/
def dragStopSetNodes (nds : List CNode) (draggingNodeId : String)
    (newPosition : Pt) (absY : ℚ) (oldGroupId : String)
    (target : Option CNode) (isSplit : Bool) (oldGroup : CNode)
    (nodeH : ℚ) (freshGroupId : String) : List CNode :=
  match nds.find? (hasId draggingNodeId) with
  | none => nds
  | some latestNode =>
    let dirty : String → Bool := fun i =>
      decide (i = oldGroupId) ||
        (match target with
         | some t => decide (i = t.id)
         | none => false)
    let nextNodes := nds.filter (fun n =>
      !(dirty n.id) &&
      !(match n.parentNode with | some p => dirty p | none => false) &&
      !(decide (n.id = draggingNodeId)))
    let draft0 := { latestNode with position := newPosition, selected := true }
    let draft :=
      match target with
      | some t =>
        { draft0 with
            parentNode := some t.id,
            position := ⟨20, absY - t.position.y⟩ }
      | none => draft0
    let pieces1 :=
      match nds.find? (hasId oldGroupId) with
      | some oldRef => compactPieces nds draft isSplit draggingNodeId oldGroupId oldRef
      | none => []
    let afterOld := nextNodes ++ pieces1
    let afterTarget :=
      match target with
      | some t =>
        if t.id ≠ oldGroupId then
          match nds.find? (hasId t.id) with
          | some tRef =>
            afterOld ++ compactPieces nds draft isSplit draggingNodeId t.id tRef
          | none => afterOld
        else afterOld
      | none => afterOld
    if isSplit then
      let newGroupH := LAYOUT_CONFIG.GROUP_PADDING_TOP + nodeH
        + LAYOUT_CONFIG.GROUP_PADDING_BOTTOM + 20
      let tX0 := oldGroup.position.x + newPosition.x - 20
      let tY := oldGroup.position.y + newPosition.y - LAYOUT_CONFIG.GROUP_PADDING_TOP
      let tX := nudgeLoop afterTarget tY newGroupH 50 tX0
      let newGroup :=
        { createGroup freshGroupId ⟨tX, tY⟩ with
            styleHeight := some (.num newGroupH),
            styleWidth := some DEFAULT_GROUP_WIDTH }
      let draft2 :=
        { draft with
            parentNode := some freshGroupId,
            position := ⟨20, LAYOUT_CONFIG.GROUP_PADDING_TOP⟩,
            styleWidth := some DEFAULT_CHILD_WIDTH,
            isLast := true }
      afterTarget ++ [newGroup, draft2]
    else afterTarget

/-- The click filter condition (lines 254–261). -/
def belowClickThreshold (dragStartPos : Option Pt) (node : CNode) : Bool :=
  match dragStartPos with
  | some sp =>
    decide (jsAbs (node.position.x - sp.x) < 5) &&
      decide (jsAbs (node.position.y - sp.y) < 5)
  | none => false

/-- `handleNodeDragStop` (`src/hooks/useFlowInteractions.ts` lines
251–432) as a pure function from the current collections, the recorded
drag-start position, the released node and the uuid the SPLIT branch
would draw, to the new collections.  Early returns leave the state
untouched; SNAP writes back only the pre-drag position; MERGE/SPLIT
detach the dragged node's edges (except on a same-group reorder) and
rebuild the dirty groups. -/
def handleNodeDragStop (st : FlowState) (dragStartPos : Option Pt)
    (node : CNode) (freshGroupId : String) : FlowState :=
  match node.parentNode with
  | none => st
  | some oldGroupId =>
    if node.type ≠ NType.chatNode then st
    else if belowClickThreshold dragStartPos node then st
    else
      match st.nodes.find? (hasId oldGroupId) with
      | none => st
      | some oldGroup =>
        let draggingNodeId := node.id
        let newPosition := node.position
        let nodeH := getNodeHeightHook node
        let nodeW := styleWidthOr node DEFAULT_CHILD_WIDTH
        let absY := oldGroup.position.y + newPosition.y
        let cursorX := oldGroup.position.x + newPosition.x + nodeW / 2
        let cursorY := absY + nodeH / 2
        match classifyDrag st.nodes cursorX cursorY oldGroup with
        | DragAction.SNAP =>
          match dragStartPos with
          | some snapPos =>
            ⟨st.nodes.map (fun n =>
                if n.id = draggingNodeId then { n with position := snapPos } else n),
             st.edges⟩
          | none => st
        | DragAction.MERGE targetGroupNode =>
          let edges' :=
            if targetGroupNode.id = oldGroupId then st.edges
            else st.edges.filter (fun e =>
              decide (e.source ≠ draggingNodeId) && decide (e.target ≠ draggingNodeId))
          ⟨dragStopSetNodes st.nodes draggingNodeId newPosition absY oldGroupId
            (some targetGroupNode) false oldGroup nodeH freshGroupId, edges'⟩
        | DragAction.SPLIT =>
          let edges' := st.edges.filter (fun e =>
            decide (e.source ≠ draggingNodeId) && decide (e.target ≠ draggingNodeId))
          ⟨dragStopSetNodes st.nodes draggingNodeId newPosition absY oldGroupId
            none true oldGroup nodeH freshGroupId, edges'⟩

/-- The classification alone, with the handler's early-out conditions
(`none` when the handler would return without classifying). -/
def dragActionOf (st : FlowState) (dragStartPos : Option Pt)
    (node : CNode) : Option DragAction :=
  match node.parentNode with
  | none => none
  | some oldGroupId =>
    if node.type ≠ NType.chatNode then none
    else if belowClickThreshold dragStartPos node then none
    else
      match st.nodes.find? (hasId oldGroupId) with
      | none => none
      | some oldGroup =>
        let nodeH := getNodeHeightHook node
        let nodeW := styleWidthOr node DEFAULT_CHILD_WIDTH
        let absY := oldGroup.position.y + node.position.y
        let cursorX := oldGroup.position.x + node.position.x + nodeW / 2
        let cursorY := absY + nodeH / 2
        some (classifyDrag st.nodes cursorX cursorY oldGroup)

/-! ## Claim C4: the click filter -/

/-- C4, amended: a release whose displacement is below the 5px threshold
on both axes is treated as a click and the handler mutates nothing at
all — both collections are returned unchanged (the pre-drag position is
not written back; the node keeps whatever position the drag gave it). -/
theorem claim_C4_amended (st : FlowState) (sp : Pt) (node : CNode) (fid : String)
    (h : jsAbs (node.position.x - sp.x) < 5 ∧ jsAbs (node.position.y - sp.y) < 5) :
    handleNodeDragStop st (some sp) node fid = st := by
  have hb : belowClickThreshold (some sp) node = true := by
    simp [belowClickThreshold, h.1, h.2]
  unfold handleNodeDragStop
  cases node.parentNode with
  | none => rfl
  | some gid => simp [hb]

/-- The C4/C6 demo group: `g`, 400×300 at the origin (same shape as the
C2 group). -/
def c4node : CNode :=
  { id := "n1", type := .chatNode, position := ⟨23, 33⟩,
    styleWidth := some 360, styleHeight := some (.num 100),
    width := none, height := none,
    parentNode := some "g", selected := false, isLast := true }

def c4state : FlowState := ⟨[c2group, c4node], []⟩

/-- C4 counterexample: after a 3px drag (pre-drag `(20,30)`, release at
`(23,33)`) the handler does NOT restore the pre-drag position — it
returns the collection unchanged, with the dragged node still at
`(23,33)`.  The claim's "restores the dragged node's pre-drag position"
is false on the code. -/
theorem claim_C4_counterexample :
    ¬ ((handleNodeDragStop c4state (some ⟨20, 30⟩) c4node "f").nodes =
       c4state.nodes.map (fun n =>
         if n.id = c4node.id then { n with position := ⟨20, 30⟩ } else n)) := by
  have he : handleNodeDragStop c4state (some ⟨20, 30⟩) c4node "f" = c4state := by
    unfold handleNodeDragStop
    norm_num [c4node, belowClickThreshold, jsAbs]
  rw [he]
  intro h
  have h2 := congrArg (fun l => (l.get? 1).map (fun n => n.position)) h
  norm_num [c4state, c4node, c2group] at h2

/-- Witness for the amended C4 at the same 3px drag. -/
theorem claim_C4_amended_witness :
    (jsAbs (c4node.position.x - 20) < 5 ∧ jsAbs (c4node.position.y - 30) < 5) ∧
    handleNodeDragStop c4state (some ⟨20, 30⟩) c4node "f" = c4state :=
  ⟨by norm_num [c4node, jsAbs],
   claim_C4_amended c4state ⟨20, 30⟩ c4node "f" (by norm_num [c4node, jsAbs])⟩

/-! ## Claim C8: the SPLIT collision-nudge loop is bounded -/

theorem nudgeLoop_iterate (nds : List CNode) (tY newGroupH : ℚ) :
    ∀ (fuel : Nat) (tX : ℚ), ∃ k ≤ fuel,
      nudgeLoop nds tY newGroupH fuel tX = (nudgeStep nds tY newGroupH)^[k] tX ∧
      (k = fuel ∨
        findCollision nds tY newGroupH ((nudgeStep nds tY newGroupH)^[k] tX) = none) := by
  intro fuel
  induction fuel with
  | zero => intro tX; exact ⟨0, le_refl 0, rfl, Or.inl rfl⟩
  | succ n ih =>
    intro tX
    cases hc : findCollision nds tY newGroupH tX with
    | none =>
      refine ⟨0, Nat.zero_le _, ?_, Or.inr (by simpa using hc)⟩
      simp [nudgeLoop, hc]
    | some ex =>
      obtain ⟨k, hk, heq, hrest⟩ := ih (ex.position.x + splitGroupW ex + 30)
      have hstep : nudgeStep nds tY newGroupH tX = ex.position.x + splitGroupW ex + 30 := by
        simp [nudgeStep, hc]
      refine ⟨k + 1, Nat.succ_le_succ hk, ?_, ?_⟩
      · rw [Function.iterate_succ_apply, hstep]
        simpa [nudgeLoop, hc] using heq
      · rcases hrest with h1 | h1
        · exact Or.inl (by rw [h1])
        · exact Or.inr (by rw [Function.iterate_succ_apply, hstep]; exact h1)

/-- C8: the SPLIT nudge loop runs at most 50 passes: the result is the
`k`-fold iterate of the single nudge step for some `k ≤ 50`, and either
the bound was exhausted (`k = 50`, best-effort placement) or the final
position collides with no group; each pass that finds a colliding group
moves the new group to that group's right edge plus the fixed 30px
margin, and a pass without collision keeps the position. -/
theorem claim_C8 (nds : List CNode) (tY newGroupH : ℚ) :
    (∀ tX, ∃ k ≤ 50,
      nudgeLoop nds tY newGroupH 50 tX = (nudgeStep nds tY newGroupH)^[k] tX ∧
      (k = 50 ∨
        findCollision nds tY newGroupH ((nudgeStep nds tY newGroupH)^[k] tX) = none)) ∧
    (∀ tX ex, findCollision nds tY newGroupH tX = some ex →
      nudgeStep nds tY newGroupH tX = ex.position.x + splitGroupW ex + 30) ∧
    (∀ tX, findCollision nds tY newGroupH tX = none →
      nudgeStep nds tY newGroupH tX = tX) := by
  refine ⟨fun tX => nudgeLoop_iterate nds tY newGroupH 50 tX, ?_, ?_⟩
  · intro tX ex hc; simp [nudgeStep, hc]
  · intro tX hc; simp [nudgeStep, hc]

/-- Witness for C8: with the demo group as obstacle, the collision is
found and one nudge step shifts right by width + 30. -/
theorem claim_C8_witness :
    findCollision [c2group] 0 165 0 = some c2group ∧
    nudgeStep [c2group] 0 165 0 = c2group.position.x + splitGroupW c2group + 30 := by
  have hc : findCollision [c2group] 0 165 0 = some c2group := by
    norm_num [findCollision, splitCollides, splitGroupW, styleWidthOr,
      styleHeightOrNum, jsOr, c2group, DEFAULT_GROUP_WIDTH,
      LAYOUT_CONFIG.GROUP_WIDTH, List.find?]
  exact ⟨hc, (claim_C8 [c2group] 0 165).2.1 0 c2group hc⟩

/-! ## Claim C3: the drag-release classification -/

/-- C3: past the click threshold the handler computes the dragged node's
absolute center and (1) merges into the first group (in collection
iteration order) whose stored rectangle contains it, (2) splits when no
group contains it and it left the original group's rectangle, and (3)
otherwise snaps, writing back only the pre-drag position and leaving
everything else (including the edges) unchanged. -/
theorem claim_C3 (st : FlowState) (sp : Pt) (node : CNode) (fid : String)
    (oldGroupId : String) (oldGroup : CNode)
    (htype : node.type = NType.chatNode)
    (hparent : node.parentNode = some oldGroupId)
    (hfind : st.nodes.find? (hasId oldGroupId) = some oldGroup)
    (hthr : belowClickThreshold (some sp) node = false) :
    (∀ g, st.nodes.find? (groupContains
        (oldGroup.position.x + node.position.x + styleWidthOr node DEFAULT_CHILD_WIDTH / 2)
        (oldGroup.position.y + node.position.y + getNodeHeightHook node / 2)) = some g →
      dragActionOf st (some sp) node = some (DragAction.MERGE g)) ∧
    (st.nodes.find? (groupContains
        (oldGroup.position.x + node.position.x + styleWidthOr node DEFAULT_CHILD_WIDTH / 2)
        (oldGroup.position.y + node.position.y + getNodeHeightHook node / 2)) = none →
      (isOutOfGroup
          (oldGroup.position.x + node.position.x + styleWidthOr node DEFAULT_CHILD_WIDTH / 2)
          (oldGroup.position.y + node.position.y + getNodeHeightHook node / 2)
          oldGroup = true →
        dragActionOf st (some sp) node = some DragAction.SPLIT) ∧
      (isOutOfGroup
          (oldGroup.position.x + node.position.x + styleWidthOr node DEFAULT_CHILD_WIDTH / 2)
          (oldGroup.position.y + node.position.y + getNodeHeightHook node / 2)
          oldGroup = false →
        dragActionOf st (some sp) node = some DragAction.SNAP ∧
        handleNodeDragStop st (some sp) node fid =
          ⟨st.nodes.map (fun n =>
              if n.id = node.id then { n with position := sp } else n),
            st.edges⟩)) := by
  have hact : dragActionOf st (some sp) node =
      some (classifyDrag st.nodes
        (oldGroup.position.x + node.position.x + styleWidthOr node DEFAULT_CHILD_WIDTH / 2)
        (oldGroup.position.y + node.position.y + getNodeHeightHook node / 2) oldGroup) := by
    unfold dragActionOf
    rw [hparent]
    simp [htype, hthr, hfind]
  refine ⟨?_, ?_⟩
  · intro g hg
    rw [hact]
    simp [classifyDrag, hg]
  · intro hnone
    refine ⟨?_, ?_⟩
    · intro hout
      rw [hact]
      simp [classifyDrag, hnone, hout]
    · intro hin
      constructor
      · rw [hact]
        simp [classifyDrag, hnone, hin]
      · have hcl : classifyDrag st.nodes
            (oldGroup.position.x + node.position.x + styleWidthOr node DEFAULT_CHILD_WIDTH / 2)
            (oldGroup.position.y + node.position.y + getNodeHeightHook node / 2) oldGroup =
            DragAction.SNAP := by
          simp [classifyDrag, hnone, hin]
        unfold handleNodeDragStop
        rw [hparent]
        simp [htype, hthr, hfind, hcl]

/-- Concrete node for the C3 witness: released inside the demo group, so
the classification is a (same-group) MERGE. -/
def c3node : CNode :=
  { id := "n1", type := .chatNode, position := ⟨100, 100⟩,
    styleWidth := some 360, styleHeight := some (.num 100),
    width := none, height := none,
    parentNode := some "g", selected := false, isLast := true }

def c3state : FlowState := ⟨[c2group, c3node], []⟩

/-- Witness for C3 at a concrete beyond-threshold release. -/
theorem claim_C3_witness :
    (c3node.type = NType.chatNode ∧
     c3node.parentNode = some "g" ∧
     c3state.nodes.find? (hasId "g") = some c2group ∧
     belowClickThreshold (some ⟨20, 30⟩) c3node = false) ∧
    (∀ g, c3state.nodes.find? (groupContains
        (c2group.position.x + c3node.position.x + styleWidthOr c3node DEFAULT_CHILD_WIDTH / 2)
        (c2group.position.y + c3node.position.y + getNodeHeightHook c3node / 2)) = some g →
      dragActionOf c3state (some ⟨20, 30⟩) c3node = some (DragAction.MERGE g)) := by
  have hthr : belowClickThreshold (some ⟨20, 30⟩) c3node = false := by
    norm_num [belowClickThreshold, c3node, jsAbs]
  refine ⟨⟨rfl, rfl, by decide, hthr⟩, ?_⟩
  exact (claim_C3 c3state ⟨20, 30⟩ c3node "f" "g" c2group rfl rfl (by decide) hthr).1

/-! ## Claim C6: determinism of the drag classification -/

/-- Outside the SPLIT branch the fresh uuid is never used. -/
theorem dragStopSetNodes_freshId_irrel (nds : List CNode) (did : String)
    (np : Pt) (absY : ℚ) (gid : String) (tgt : Option CNode) (og : CNode)
    (nodeH : ℚ) (f1 f2 : String) :
    dragStopSetNodes nds did np absY gid tgt false og nodeH f1 =
    dragStopSetNodes nds did np absY gid tgt false og nodeH f2 := by
  unfold dragStopSetNodes
  cases nds.find? (hasId did) <;> simp

/-- C6, amended: the chosen action is a pure function of the listed
inputs, and so is the whole resulting state whenever the action is not
SPLIT; the SPLIT branch feeds a freshly generated (random) group id into
the output collection, so only there can two runs on identical inputs
differ. -/
theorem claim_C6_amended (st : FlowState) (sp : Option Pt) (node : CNode)
    (f1 f2 : String)
    (h : dragActionOf st sp node ≠ some DragAction.SPLIT) :
    handleNodeDragStop st sp node f1 = handleNodeDragStop st sp node f2 := by
  cases hp : node.parentNode with
  | none => unfold handleNodeDragStop; rw [hp]
  | some gid =>
    by_cases ht : node.type = NType.chatNode
    · by_cases hb : belowClickThreshold sp node = true
      · unfold handleNodeDragStop; rw [hp]; simp [hb]
      · cases hf : st.nodes.find? (hasId gid) with
        | none =>
          unfold handleNodeDragStop; rw [hp]
          simp [ht, hb, hf]
        | some og =>
          have hact : dragActionOf st sp node =
              some (classifyDrag st.nodes
                (og.position.x + node.position.x + styleWidthOr node DEFAULT_CHILD_WIDTH / 2)
                (og.position.y + node.position.y + getNodeHeightHook node / 2) og) := by
            unfold dragActionOf
            rw [hp]
            simp [ht, hb, hf]
          cases hcl : classifyDrag st.nodes
              (og.position.x + node.position.x + styleWidthOr node DEFAULT_CHILD_WIDTH / 2)
              (og.position.y + node.position.y + getNodeHeightHook node / 2) og with
          | SNAP =>
            unfold handleNodeDragStop; rw [hp]
            simp [ht, hb, hf, hcl]
          | MERGE t =>
            unfold handleNodeDragStop; rw [hp]
            simp only [ht, hb, hf, hcl]
            simp [dragStopSetNodes_freshId_irrel st.nodes node.id node.position
              (og.position.y + node.position.y) gid (some t) og
              (getNodeHeightHook node) f1 f2]
          | SPLIT =>
            exact absurd (hact.trans (by rw [hcl])) h
    · unfold handleNodeDragStop; rw [hp]; simp [ht]

/-- Concrete SPLIT release for the C6 counterexample: the only child of
the demo group is dropped far outside every group. -/
def c6node : CNode :=
  { id := "n1", type := .chatNode, position := ⟨1000, 1000⟩,
    styleWidth := some 360, styleHeight := some (.num 100),
    width := none, height := none,
    parentNode := some "g", selected := false, isLast := true }

def c6state : FlowState := ⟨[c2group, c6node], []⟩

/-- The handler's output on the C6 scenario, as a function of the uuid
the SPLIT branch draws. -/
theorem c6_run (fid : String) :
    handleNodeDragStop c6state (some ⟨20, 30⟩) c6node fid =
      ⟨[{ createGroup fid ⟨980, 970⟩ with
            styleHeight := some (.num 165), styleWidth := some 400 },
        { c6node with
            selected := true,
            parentNode := some fid,
            position := ⟨20, 30⟩,
            styleWidth := some 360 }], []⟩ := by
  have hcl : classifyDrag c6state.nodes
      (c2group.position.x + c6node.position.x + styleWidthOr c6node DEFAULT_CHILD_WIDTH / 2)
      (c2group.position.y + c6node.position.y + getNodeHeightHook c6node / 2) c2group =
      DragAction.SPLIT := by
    norm_num [classifyDrag, c6state, c6node, c2group, groupContains, isOutOfGroup,
      styleWidthOr, styleHeightOrNum, jsOr, getNodeHeightHook, jsOrOpt,
      DEFAULT_GROUP_WIDTH, DEFAULT_CHILD_WIDTH, PADDING_X,
      LAYOUT_CONFIG.GROUP_WIDTH, List.find?]
    decide
  unfold handleNodeDragStop
  have hfind : c6state.nodes.find? (hasId "g") = some c2group := by decide
  have hthr : belowClickThreshold (some ⟨20, 30⟩) c6node = false := by
    norm_num [belowClickThreshold, c6node, jsAbs]
  rw [show c6node.parentNode = some "g" from rfl]
  norm_num [show c6node.type = NType.chatNode from rfl, hthr, hfind, hcl]
  have hset : dragStopSetNodes c6state.nodes c6node.id c6node.position
      (c2group.position.y + c6node.position.y) "g" none true c2group
      (getNodeHeightHook c6node) fid =
      [{ createGroup fid ⟨980, 970⟩ with
           styleHeight := some (.num 165), styleWidth := some 400 },
       { c6node with
           selected := true,
           parentNode := some fid,
           position := ⟨20, 30⟩,
           styleWidth := some 360 }] := by
    have hd1 : (decide (("g" : String) = "n1")) = false := by decide
    have hd2 : (decide (("n1" : String) = "n1")) = true := by decide
    have hd3 : (decide ((none : Option String) = some "g")) = false := by decide
    have hd4 : (decide ((some "g" : Option String) = some "g")) = true := by decide
    have hd5 : (decide (("g" : String) = "g")) = true := by decide
    have hd6 : (decide (("n1" : String) = "g")) = false := by decide
    norm_num [hd1, hd2, hd3, hd4, hd5, hd6,
      dragStopSetNodes, hasId, compactPieces, sortByY, restackSiblings,
      restackFinalY, nudgeLoop, findCollision, splitCollides, splitGroupW,
      createGroup, styleWidthOr, styleHeightOrNum, jsOr, getNodeHeightHook,
      jsOrOpt, DEFAULT_GROUP_WIDTH, DEFAULT_CHILD_WIDTH, PADDING_X,
      LAYOUT_CONFIG.GROUP_WIDTH, LAYOUT_CONFIG.GROUP_PADDING_TOP,
      LAYOUT_CONFIG.GROUP_PADDING_BOTTOM, LAYOUT_CONFIG.NODE_GAP,
      LAYOUT_CONFIG.DEFAULT_NODE_HEIGHT,
      c6state, c6node, c2group, List.find?, List.filter]
  rw [hset]
  norm_num [c6state, c6node]

/-- C6 counterexample: two runs of the release handler on identical
pre-drag position, post-drag position and collections, in the SPLIT
case, produce different node collections — the branch embeds a freshly
drawn uuid (here `"id-a"` vs `"id-b"`) as the new group's id. -/
theorem claim_C6_counterexample :
    handleNodeDragStop c6state (some ⟨20, 30⟩) c6node "id-a" ≠
    handleNodeDragStop c6state (some ⟨20, 30⟩) c6node "id-b" := by
  rw [c6_run "id-a", c6_run "id-b"]
  intro h
  have h2 := congrArg (fun s => s.nodes.map CNode.id) h
  norm_num [createGroup, c6node] at h2
  exact absurd h2 (by decide)

/-- Witness for the amended C6 at a concrete MERGE release: the two runs
with different uuids coincide. -/
theorem claim_C6_amended_witness :
    dragActionOf c3state (some ⟨20, 30⟩) c3node ≠ some DragAction.SPLIT ∧
    handleNodeDragStop c3state (some ⟨20, 30⟩) c3node "id-a" =
      handleNodeDragStop c3state (some ⟨20, 30⟩) c3node "id-b" := by
  have hact : dragActionOf c3state (some ⟨20, 30⟩) c3node =
      some (DragAction.MERGE c2group) := by
    have hthr : belowClickThreshold (some ⟨20, 30⟩) c3node = false := by
      norm_num [belowClickThreshold, c3node, jsAbs]
    unfold dragActionOf
    rw [show c3node.parentNode = some "g" from rfl]
    norm_num [show c3node.type = NType.chatNode from rfl, hthr,
      show c3state.nodes.find? (hasId "g") = some c2group from by decide]
    norm_num [classifyDrag, c3state, c3node, c2group, groupContains,
      styleWidthOr, styleHeightOrNum, jsOr, getNodeHeightHook, jsOrOpt,
      DEFAULT_GROUP_WIDTH, DEFAULT_CHILD_WIDTH, PADDING_X,
      LAYOUT_CONFIG.GROUP_WIDTH, List.find?]
  have hne : dragActionOf c3state (some ⟨20, 30⟩) c3node ≠ some DragAction.SPLIT := by
    rw [hact]; simp
  exact ⟨hne, claim_C6_amended c3state (some ⟨20, 30⟩) c3node "id-a" "id-b" hne⟩

/-! ## JS numbers with special values

The geometry functions of the edge router (`src/utils/edgeRouter.ts`,
provided as an unnamed source file) defend against `NaN`, `±Infinity`,
`undefined` and missing points; `JNum` models exactly those values. -/

inductive JNum where
  | fin (v : ℚ)
  | nan
  | posInf
  | negInf
  | undef
deriving DecidableEq, Repr

namespace JNum

/-- `typeof x === 'number'`. -/
def typeNumber : JNum → Bool
  | fin _ => true
  | nan => true
  | posInf => true
  | negInf => true
  | undef => false

/-- Global `isNaN` (with coercion: `isNaN(undefined)` is `true`). -/
def isNaNB : JNum → Bool
  | nan => true
  | undef => true
  | _ => false

/-- `Number.isFinite`. -/
def isFiniteB : JNum → Bool
  | fin _ => true
  | _ => false

/-- JS subtraction on possibly-special numbers (`undefined` coerces to
`NaN`). -/
def sub : JNum → JNum → JNum
  | fin a, fin b => fin (a - b)
  | posInf, fin _ => posInf
  | posInf, negInf => posInf
  | negInf, fin _ => negInf
  | negInf, posInf => negInf
  | fin _, posInf => negInf
  | fin _, negInf => posInf
  | _, _ => nan

/-- JS addition. -/
def add : JNum → JNum → JNum
  | fin a, fin b => fin (a + b)
  | posInf, fin _ => posInf
  | fin _, posInf => posInf
  | posInf, posInf => posInf
  | negInf, fin _ => negInf
  | fin _, negInf => negInf
  | negInf, negInf => negInf
  | _, _ => nan

/-- `Math.abs`. -/
def abs : JNum → JNum
  | fin v => fin (jsAbs v)
  | posInf => posInf
  | negInf => posInf
  | _ => nan

/-- `x / 2`. -/
def half : JNum → JNum
  | fin v => fin (v / 2)
  | posInf => posInf
  | negInf => negInf
  | _ => nan

/-- JS `<` (every comparison with `NaN` is `false`). -/
def ltB : JNum → JNum → Bool
  | fin a, fin b => decide (a < b)
  | fin _, posInf => true
  | negInf, fin _ => true
  | negInf, posInf => true
  | _, _ => false

/-- JS `>`. -/
def gtB (a b : JNum) : Bool := ltB b a

/-- JS `===` on numbers (`NaN === NaN` is `false`). -/
def eqB : JNum → JNum → Bool
  | fin a, fin b => decide (a = b)
  | posInf, posInf => true
  | negInf, negInf => true
  | undef, undef => true
  | _, _ => false

end JNum

/-- A point whose coordinates may be special JS values. -/
structure JPt where
  x : JNum
  y : JNum
deriving DecidableEq, Repr

/-- Injection of a finite point. -/
def Pt.toJ (p : Pt) : JPt := ⟨.fin p.x, .fin p.y⟩

/-! ## `simplifyOrthogonalPoints` (edge router source, lines 155–199) -/

/-- The validity filter of `simplifyOrthogonalPoints` (line 158):
`p && typeof p.x === 'number' && typeof p.y === 'number' && !isNaN(p.x)
&& !isNaN(p.y)` — note that `±Infinity` passes it. -/
def validSimplifyPoint (p : Option JPt) : Bool :=
  match p with
  | some q => q.x.typeNumber && q.y.typeNumber && !q.x.isNaNB && !q.y.isNaNB
  | none => false

/-- The surviving points of the filter. -/
def simplifyValidPoints (points : List (Option JPt)) : List JPt :=
  (points.filter validSimplifyPoint).filterMap id

/-- The snapping loop (lines 162–168): each point's coordinates are
pulled onto the previous (already snapped) point's when within 1px. -/
def snapGo (prev : JPt) : List JPt → List JPt
  | [] => []
  | c :: rest =>
    let cx := if (c.x.sub prev.x).abs.ltB (.fin 1) then prev.x else c.x
    let cy := if (c.y.sub prev.y).abs.ltB (.fin 1) then prev.y else c.y
    ⟨cx, cy⟩ :: snapGo ⟨cx, cy⟩ rest

def snapPass : List JPt → List JPt
  | [] => []
  | p :: rest => p :: snapGo p rest

/-- The zero-length-removal loop (lines 171–180): keep a point if it is
more than 0.1px from the last kept point on either axis; a dropped final
point replaces the last kept one. -/
def uniqueGo (lastKept : JPt) : List JPt → List JPt
  | [] => [lastKept]
  | c :: rest =>
    if (c.x.sub lastKept.x).abs.gtB (.fin (1/10)) ||
       (c.y.sub lastKept.y).abs.gtB (.fin (1/10)) then
      lastKept :: uniqueGo c rest
    else if rest.isEmpty then [c]
    else uniqueGo lastKept rest

def uniquePass : List JPt → List JPt
  | [] => []
  | p :: rest => uniqueGo p rest

/-- The collinear-merge loop (lines 185–196): drop the middle point of
any horizontally or vertically collinear triple (previous kept,
current, next); the final point is always pushed. -/
def mergeGo (prev : JPt) : List JPt → List JPt
  | [] => []
  | [last] => [last]
  | c :: next :: rest =>
    let isH := prev.y.eqB c.y && c.y.eqB next.y
    let isV := prev.x.eqB c.x && c.x.eqB next.x
    if isH || isV then mergeGo prev (next :: rest)
    else c :: mergeGo c (next :: rest)

def mergePass : List JPt → List JPt
  | [] => []
  | u0 :: rest => u0 :: mergeGo u0 rest

/-- `simplifyOrthogonalPoints` (lines 155–199). -/
def simplifyOrthogonalPoints (points : List (Option JPt)) : List JPt :=
  let validPoints := simplifyValidPoints points
  if validPoints.length < 2 then validPoints
  else
    let snapped := snapPass validPoints
    let unique := uniquePass snapped
    if unique.length < 2 then validPoints
    else mergePass unique

/-! ## `pointsToPath` (edge router source, lines 93–131) -/

/-- The validity filter of `pointsToPath` (line 95):
`p && Number.isFinite(p.x) && Number.isFinite(p.y)`, with the surviving
(finite) coordinates extracted. -/
def pathValidPoints (points : List (Option JPt)) : List Pt :=
  points.filterMap (fun p =>
    match p with
    | some ⟨.fin x, .fin y⟩ => some ⟨x, y⟩
    | _ => none)

/-- The corner loop of `pointsToPath` (lines 100–126), over the interior
points of the valid list. -/
def pointsToPathGo (borderRadius : ℚ) : Pt → Pt → List Pt → String
  | _, _, [] => ""
  | p0, p1, p2 :: rest =>
    let dist0 := jsAbs (p1.x - p0.x) + jsAbs (p1.y - p0.y)
    let dist1 := jsAbs (p2.x - p1.x) + jsAbs (p2.y - p1.y)
    let effectiveRadius := jsMin (jsMin borderRadius (dist0 / 2)) (dist1 / 2)
    (if effectiveRadius ≤ 1/2 then
      " L " ++ toString p1.x ++ " " ++ toString p1.y
    else
      let v0x := jsSign (p1.x - p0.x)
      let v0y := jsSign (p1.y - p0.y)
      let v1x := jsSign (p2.x - p1.x)
      let v1y := jsSign (p2.y - p1.y)
      let stopX := p1.x - v0x * effectiveRadius
      let stopY := p1.y - v0y * effectiveRadius
      let endCurveX := p1.x + v1x * effectiveRadius
      let endCurveY := p1.y + v1y * effectiveRadius
      " L " ++ toString stopX ++ " " ++ toString stopY ++
      " Q " ++ toString p1.x ++ " " ++ toString p1.y ++ " " ++
        toString endCurveX ++ " " ++ toString endCurveY) ++
    pointsToPathGo borderRadius p1 p2 rest

/-- `pointsToPath` (lines 93–131): empty string when fewer than two
points survive the finite-coordinate filter, otherwise an SVG path with
rounded corners clamped to half of either adjoining segment. -/
def pointsToPath (points : List (Option JPt)) (borderRadius : ℚ) : String :=
  if points.length < 2 then ""
  else
    match hv : pathValidPoints points with
    | p0 :: p1 :: rest =>
      "M " ++ toString p0.x ++ " " ++ toString p0.y ++
        pointsToPathGo borderRadius p0 p1 rest ++
        (let last := (p1 :: rest).getLast (List.cons_ne_nil p1 rest)
         " L " ++ toString last.x ++ " " ++ toString last.y)
    | _ => ""

/-! ## `getLabelPositionFromPoints` (edge router source, lines 133–152) -/

/-- The validity filter of `getLabelPositionFromPoints` (line 135):
`p && Number.isFinite(p.x)` — only the `x` coordinate is checked. -/
def labelValidPoints (points : List (Option JPt)) : List JPt :=
  points.filterMap (fun p =>
    match p with
    | some q => if q.x.isFiniteB then some q else none
    | none => none)

/-- The longest-segment scan (lines 138–148): `maxIdx` tracking is
modelled by carrying the first maximal pair; an update happens only on a
strictly greater (JS `>`, hence never `NaN`) length. -/
def labelBestPair (best : JPt × JPt) (maxLen : JNum) : List JPt → JPt × JPt
  | p1 :: p2 :: rest =>
    let len := ((p1.x.sub p2.x).abs).add ((p1.y.sub p2.y).abs)
    if len.gtB maxLen then labelBestPair (p1, p2) len (p2 :: rest)
    else labelBestPair best maxLen (p2 :: rest)
  | _ => best

/-- `getLabelPositionFromPoints` (lines 133–152): `[0,0]` when fewer than
two points survive, otherwise the midpoint of the longest segment. -/
def getLabelPositionFromPoints (points : List (Option JPt)) : JNum × JNum :=
  if points.length < 2 then (.fin 0, .fin 0)
  else
    match labelValidPoints points with
    | p0 :: p1 :: rest =>
      let best := labelBestPair (p0, p1) (.fin 0) (p0 :: p1 :: rest)
      (((best.1.x.add best.2.x).half), ((best.1.y.add best.2.y).half))
    | _ => (.fin 0, .fin 0)

/-! ## `deterministicHash` (`src/utils/mathUtils.ts`) -/

/-- Wrap to a signed 32-bit integer (`| 0`). -/
def wrap32 (n : ℤ) : ℤ := ((n + 2 ^ 31) % 2 ^ 32) - 2 ^ 31

/-- One step of the hash loop:
`hash = ((hash << 5) - hash) + charCode; hash |= 0`.  The `<< 5` itself
operates on (and returns) int32. -/
def hashStep (hash : ℤ) (c : ℕ) : ℤ := wrap32 (wrap32 (hash * 32) - hash + c)

/-- `deterministicHash` (`src/utils/mathUtils.ts` lines 30–37). -/
def deterministicHash (s : String) : ℤ :=
  s.data.foldl (fun h ch => hashStep h ch.toNat) 0

/-! ## The edge router (`getCustomSmartPath`, edge router source lines
202–398) -/

/-- React Flow's `Position` (anchor side). -/
inductive JPos where
  | left
  | right
  | top
  | bottom
deriving DecidableEq, Repr

/-- `getDirectionVector` (router lines 25–33; the trailing
`return {x:1, y:0}` is unreachable — the four cases are exhaustive). -/
def getDirectionVector (pos : JPos) : Pt :=
  match pos with
  | .left => ⟨-1, 0⟩
  | .right => ⟨1, 0⟩
  | .top => ⟨0, -1⟩
  | .bottom => ⟨0, 1⟩

/-- An edge as the router sees it: id plus optional manual waypoints
(`edge.data?.waypoints`). -/
structure REdge where
  id : String
  waypoints : Option (List Pt)
deriving DecidableEq, Repr

/-- A node rectangle with padding.  Position and width are always
numbers; the height alone can be `parseInt("auto") = NaN`, modelled by
`b = none` (every JS comparison against that `b` is `false`). -/
structure JRect where
  l : ℚ
  r : ℚ
  t : ℚ
  b : Option ℚ
deriving DecidableEq, Repr

/-- JS `parseInt(String(v))` on a finite number: truncation toward 0. -/
def jsTrunc (v : ℚ) : ℚ := ((v.num.tdiv (v.den : ℤ) : ℤ) : ℚ)

/-- Truthiness of a `style` dimension (`node.style?.width ? … : …`):
the number 0 is falsy, any string is truthy. -/
def dimTruthy : CssDim → Bool
  | .num v => decide (v ≠ 0)
  | _ => true

/-- `parseInt` of a `style` dimension string/number: `"100%"` parses to
100, `"auto"` to `NaN` (`none`). -/
def jsParseIntDim : CssDim → Option ℚ
  | .num v => some (jsTrunc v)
  | .strPx n => some (n : ℚ)
  | .pct100 => some 100
  | .auto => none

/-- `getNodeRect` (router lines 35–41):
`w = node.width ?? (node.style?.width ? parseInt(node.style.width) : 400)`
and the same for the height with default 200. -/
def getNodeRect (node : CNode) (padding : ℚ) : JRect :=
  let x := node.position.x
  let y := node.position.y
  let w : ℚ :=
    match node.width with
    | some w => w
    | none =>
      match node.styleWidth with
      | some sw => if sw = 0 then 400 else jsTrunc sw
      | none => 400
  let h : Option ℚ :=
    match node.height with
    | some h => some h
    | none =>
      match node.styleHeight with
      | some d => if dimTruthy d then jsParseIntDim d else some 200
      | none => some 200
  ⟨x - padding, x + w + padding, y - padding,
    match h with
    | some h => some (y + h + padding)
    | none => none⟩

/-- `isSegmentCrossingRect` (router lines 43–52): a bounding-box overlap
test; with a `NaN` bottom edge the fourth escape comparison is `false`.
(The `!p1 || !p2` guard is vacuous here: segment endpoints are always
present.) -/
def isSegmentCrossingRect (p1 p2 : Pt) (rect : JRect) : Bool :=
  let minX := jsMin p1.x p2.x
  let maxX := jsMax p1.x p2.x
  let minY := jsMin p1.y p2.y
  let maxY := jsMax p1.y p2.y
  !(decide (maxX < rect.l) || decide (minX > rect.r) ||
    decide (maxY < rect.t) ||
    (match rect.b with
     | some b => decide (minY > b)
     | none => false))

/-- `getSegmentOverlapLength` (router lines 54–71). -/
def getSegmentOverlapLength (a1 a2 b1 b2 : Pt) : ℚ :=
  let isAVert := decide (jsAbs (a1.x - a2.x) < 1)
  let isBVert := decide (jsAbs (b1.x - b2.x) < 1)
  if isAVert ≠ isBVert then 0
  else if isAVert then
    if jsAbs (a1.x - b1.x) > 5 then 0
    else
      let yStart := jsMax (jsMin a1.y a2.y) (jsMin b1.y b2.y)
      let yEnd := jsMin (jsMax a1.y a2.y) (jsMax b1.y b2.y)
      jsMax 0 (yEnd - yStart)
  else
    if jsAbs (a1.y - b1.y) > 5 then 0
    else
      let xStart := jsMax (jsMin a1.x a2.x) (jsMin b1.x b2.x)
      let xEnd := jsMin (jsMax a1.x a2.x) (jsMax b1.x b2.x)
      jsMax 0 (xEnd - xStart)

/-- The inputs of `getCustomSmartPath` (`GetCustomPathParams`). -/
structure RouterIn where
  sourceX : JNum
  sourceY : JNum
  sourcePosition : JPos
  targetX : JNum
  targetY : JNum
  targetPosition : Option JPos
  offset : ℚ
  avoidanceNodes : List CNode
  existingEdges : List REdge
  edgeId : Option String
deriving DecidableEq, Repr

/-- `Number.isFinite(c) ? c : 0` (router lines 208–211). -/
def sanitizeCoord (j : JNum) : ℚ :=
  match j with
  | .fin v => v
  | _ => 0

def routerSX (p : RouterIn) : ℚ := sanitizeCoord p.sourceX
def routerSY (p : RouterIn) : ℚ := sanitizeCoord p.sourceY
def routerTX (p : RouterIn) : ℚ := sanitizeCoord p.targetX
def routerTY (p : RouterIn) : ℚ := sanitizeCoord p.targetY

def sDir (p : RouterIn) : Pt := getDirectionVector p.sourcePosition

/-- `targetPosition || (sourcePosition === Right ? Left : Right)`. -/
def safeTargetPos (p : RouterIn) : JPos :=
  match p.targetPosition with
  | some t => t
  | none => if p.sourcePosition = .right then .left else .right

def tDir (p : RouterIn) : Pt := getDirectionVector (safeTargetPos p)

def pStart (p : RouterIn) : Pt := ⟨routerSX p, routerSY p⟩

/-- The source stub end (`STUB = 20`). -/
def pBufS (p : RouterIn) : Pt :=
  ⟨routerSX p + (sDir p).x * 20, routerSY p + (sDir p).y * 20⟩

def pEnd (p : RouterIn) : Pt := ⟨routerTX p, routerTY p⟩

def pBufT (p : RouterIn) : Pt :=
  ⟨routerTX p + (tDir p).x * 20, routerTY p + (tDir p).y * 20⟩

/-- `laneHash` (router line 224). -/
def laneHash (p : RouterIn) : ℚ :=
  match p.edgeId with
  | some eid => (((deterministicHash eid).natAbs % 10 : ℕ) : ℚ) - 5
  | none => 0

def defaultMidX (p : RouterIn) : ℚ :=
  ((pBufS p).x + (pBufT p).x) / 2 + laneHash p

def defaultMidY (p : RouterIn) : ℚ :=
  ((pBufS p).y + (pBufT p).y) / 2 + laneHash p

/-- The accumulator of the obstacle scan (router lines 238–276):
`maxBottom` starts at `-Infinity` and `minTop` at `Infinity`, modelled by
`none`. -/
structure CorridorAcc where
  xCands : List ℚ
  maxBottom : Option ℚ
  minTop : Option ℚ
  hasObstacle : Bool
deriving DecidableEq, Repr

/-- The obstacle scan (router lines 238–276): group rectangles (25px
padding) whose X projection overlaps the corridor update the sky/ground
extremes; those whose Y projection overlaps it and straddle `defaultMidX`
push left/right X detour lanes. -/
def corridorScan (p : RouterIn) : CorridorAcc :=
  let rangeXMin := jsMin (pBufS p).x (pBufT p).x
  let rangeXMax := jsMax (pBufS p).x (pBufT p).x
  let rangeYMin := jsMin (pBufS p).y (pBufT p).y
  let rangeYMax := jsMax (pBufS p).y (pBufT p).y
  let init : CorridorAcc := ⟨[defaultMidX p], none, none, false⟩
  if p.avoidanceNodes.length = 0 then init
  else
    p.avoidanceNodes.foldl (fun acc node =>
      if node.type ≠ NType.groupNode then acc
      else
        let rect := getNodeRect node 25
        let acc1 :=
          if rect.r > rangeXMin ∧ rect.l < rangeXMax then
            { acc with
                maxBottom :=
                  match rect.b, acc.maxBottom with
                  | some b, some m => if b > m then some b else some m
                  | some b, none => some b
                  | none, m => m
                minTop :=
                  match acc.minTop with
                  | some m => if rect.t < m then some rect.t else some m
                  | none => some rect.t
                hasObstacle := true }
          else acc
        if (match rect.b with
            | some b => decide (b > rangeYMin)
            | none => false) = true ∧ rect.t < rangeYMax then
          if defaultMidX p > rect.l ∧ defaultMidX p < rect.r then
            { acc1 with xCands := acc1.xCands ++ [rect.l - 20, rect.r + 20] }
          else acc1
        else acc1) init

/-- The Y detour lanes (router lines 272–275): the default mid line plus,
when an obstacle straddles the corridor, sky and ground lines 30px beyond
the extremes.  A ground lane whose extreme was never set finite
(`-Infinity + 30 = -Infinity`) would give an infinite-length candidate
that can never win the cost comparison, so it is not generated here. -/
def yCandsOf (p : RouterIn) (acc : CorridorAcc) : List ℚ :=
  [defaultMidY p] ++
    (if acc.hasObstacle then
      (match acc.minTop with
       | some mt => [mt - 30]
       | none => []) ++
      (match acc.maxBottom with
       | some mb => [mb + 30]
       | none => [])
    else [])

/-- A path candidate (type tag and points; the mutable `cost` field of
the source is computed separately by `candCost`). -/
structure PathCandidate where
  type : String
  points : List Pt
deriving DecidableEq, Repr

/-- A horizontal-first Z-shape through vertical lane `mx` (router lines
281–287; the Detour candidates of lines 317–329 have the same point
shape). -/
def zShape (p : RouterIn) (mx : ℚ) : List Pt :=
  [pStart p, pBufS p, ⟨mx, (pBufS p).y⟩, ⟨mx, (pBufT p).y⟩, pBufT p, pEnd p]

/-- A vertical-first shape through horizontal lane `my` (the Vertical
candidate of lines 291–295 and the Skyline/Groundline candidates of
lines 299–314). -/
def uShape (p : RouterIn) (my : ℚ) : List Pt :=
  [pStart p, pBufS p, ⟨(pBufS p).x, my⟩, ⟨(pBufT p).x, my⟩, pBufT p, pEnd p]

/-- All generated candidates, in generation order (router lines
278–330). -/
def candidatesOf (p : RouterIn) : List PathCandidate :=
  let acc := corridorScan p
  (acc.xCands.map (fun mx => ⟨"Direct", zShape p mx⟩)) ++
  [⟨"Vertical", uShape p (defaultMidY p)⟩] ++
  (((yCandsOf p acc).filter (fun my => decide (my ≠ defaultMidY p))).map
    (fun my => ⟨"Skyline", uShape p my⟩)) ++
  (if p.sourcePosition = .left ∨ p.sourcePosition = .right then
    [⟨"Detour", zShape p ((pBufS p).x + (sDir p).x * (p.offset + laneHash p))⟩,
     ⟨"Detour", zShape p ((pBufT p).x + (tDir p).x * (p.offset + laneHash p))⟩]
  else [])

/-- Total Manhattan length of a polyline (cost term 1, lines 340–345). -/
def manhattanLen : List Pt → ℚ
  | a :: b :: rest => jsAbs (a.x - b.x) + jsAbs (a.y - b.y) + manhattanLen (b :: rest)
  | _ => 0

/-- The backing-into-the-source penalty (cost term 2, lines 347–353). -/
def backPenalty (p : RouterIn) (pts : List Pt) : ℚ :=
  if pts.length > 3 then
    match pts.get? 1, pts.get? 2 with
    | some p1, some p2 =>
      if (sDir p).x * (p2.x - p1.x) + (sDir p).y * (p2.y - p1.y) < -(1/10)
      then 5000 else 0
    | _, _ => 0
  else 0

/-- Crossings of one segment with the (10px-padded) group rectangles. -/
def segCrossings (p : RouterIn) (p1 p2 : Pt) : ℕ :=
  p.avoidanceNodes.foldl (fun acc node =>
    if node.type = NType.groupNode ∧
       isSegmentCrossingRect p1 p2 (getNodeRect node 10) = true
    then acc + 1 else acc) 0

/-- Total rectangle-crossing count of a polyline (cost term 3, lines
355–367: `nodeIntersections`). -/
def crossCount (p : RouterIn) : List Pt → ℕ
  | a :: b :: rest => segCrossings p a b + crossCount p (b :: rest)
  | _ => 0

/-- Overlap of one of my segments with one existing edge's waypoint
polyline (only overlaps longer than 10px count). -/
def pairOverlap (myP1 myP2 : Pt) : List Pt → ℚ
  | o1 :: o2 :: rest =>
    (let ol := getSegmentOverlapLength myP1 myP2 o1 o2
     if ol > 10 then ol else 0) + pairOverlap myP1 myP2 (o2 :: rest)
  | _ => 0

def edgeOverlapForSeg (p : RouterIn) (a b : Pt) : ℚ :=
  p.existingEdges.foldl (fun acc e =>
    if p.edgeId = some e.id then acc
    else
      match e.waypoints with
      | some o => acc + pairOverlap a b o
      | none => acc) 0

/-- Total collinear-overlap length with already-placed edges (cost term
4, lines 369–388: `edgeOverlaps`). -/
def edgeOverlaps (p : RouterIn) : List Pt → ℚ
  | a :: b :: rest => edgeOverlapForSeg p a b + edgeOverlaps p (b :: rest)
  | _ => 0

/-- The total cost of a candidate (router lines 336–390):
`length * 1 + 5000·backtrack + 20000·crossings + 50·overlap`. -/
def candCost (p : RouterIn) (c : PathCandidate) : ℚ :=
  manhattanLen c.points * 1 + backPenalty p c.points
    + (crossCount p c.points : ℚ) * 20000 + edgeOverlaps p c.points * 50

/-- The selection loop (router lines 333–392): `bestPath` starts at
`candidates[0]`, `minCost` at `Infinity`, and a candidate replaces the
best only on a strictly smaller cost (ties keep the earlier candidate).
The candidate list is never empty (the default mid-X Direct candidate
always exists); the `[]` fallback mirrors the JS `candidates[0]`
access. -/
def chooseBest (cost : PathCandidate → ℚ) (cands : List PathCandidate) :
    PathCandidate :=
  match cands with
  | [] => ⟨"Direct", []⟩
  | c0 :: rest =>
    rest.foldl (fun best c => if cost c < cost best then c else best) c0

def selectedCandidate (p : RouterIn) : PathCandidate :=
  chooseBest (candCost p) (candidatesOf p)

/-- `getCustomSmartPath` (router lines 202–398): select the cheapest
candidate, simplify its points, and return the SVG path, the label
anchor and the cleaned point list. -/
def getCustomSmartPath (p : RouterIn) : String × JNum × JNum × List JPt :=
  let bestPath := selectedCandidate p
  let cleanPoints := simplifyOrthogonalPoints (bestPath.points.map (fun q => some q.toJ))
  let pathStr := pointsToPath (cleanPoints.map some) 8
  let lxy := getLabelPositionFromPoints (cleanPoints.map some)
  (pathStr, lxy.1, lxy.2, cleanPoints)

/-! ## Claim C7: tolerance of invalid coordinates -/

/-- C7 counterexample: `getLabelPositionFromPoints` filters only on the
`x` coordinate, so two points with `NaN` `y` pass the filter and the
"neutral" result is `(5, NaN)` — the invalid coordinates are neither
filtered out nor replaced by the zero position. -/
theorem claim_C7_counterexample :
    (getLabelPositionFromPoints [some ⟨.fin 0, .nan⟩, some ⟨.fin 10, .nan⟩]).2 =
      JNum.nan ∧ JNum.nan ≠ JNum.fin 0 := by decide

theorem filter_validSimplify_idem (points : List (Option JPt)) :
    (points.filter validSimplifyPoint).filter validSimplifyPoint =
      points.filter validSimplifyPoint := by
  induction points with
  | nil => rfl
  | cons p rest ih =>
    by_cases hp : validSimplifyPoint p = true
    · simp [List.filter_cons, hp, ih]
    · simp [List.filter_cons, hp, ih]

/-- C7, amended: `pointsToPath` filters missing/non-finite points and
returns the empty path when fewer than two remain;
`getLabelPositionFromPoints` filters only points that are missing or
have non-finite `x` (an invalid `y` passes and propagates) and returns
`[0,0]` when fewer than two remain; `simplifyOrthogonalPoints` builds its
result only from the points that pass its filter (missing, non-number or
`NaN` coordinates are discarded; `±Infinity` passes).  All three are
total functions — nothing raises. -/
theorem claim_C7_amended :
    (∀ (points : List (Option JPt)) (r : ℚ),
      (pathValidPoints points).length < 2 → pointsToPath points r = "") ∧
    (∀ points : List (Option JPt),
      (labelValidPoints points).length < 2 →
        getLabelPositionFromPoints points = (.fin 0, .fin 0)) ∧
    (∀ points : List (Option JPt),
      simplifyOrthogonalPoints points =
        simplifyOrthogonalPoints (points.filter validSimplifyPoint)) := by
  refine ⟨?_, ?_, ?_⟩
  · intro points r h
    unfold pointsToPath
    split
    · rfl
    · split
      · rename_i hv
        rw [hv] at h
        simp at h
        omega
      · rfl
  · intro points h
    unfold getLabelPositionFromPoints
    split
    · rfl
    · split
      · rename_i hv
        rw [hv] at h
        simp at h
        omega
      · rfl
  · intro points
    unfold simplifyOrthogonalPoints simplifyValidPoints
    rw [filter_validSimplify_idem]

/-- Witness for the amended C7 at concrete degenerate inputs. -/
theorem claim_C7_amended_witness :
    ((pathValidPoints [some ⟨.nan, .fin 0⟩, some ⟨.fin 1, .undef⟩]).length < 2 ∧
      pointsToPath [some ⟨.nan, .fin 0⟩, some ⟨.fin 1, .undef⟩] 8 = "") ∧
    ((labelValidPoints [none, some ⟨.posInf, .fin 0⟩]).length < 2 ∧
      getLabelPositionFromPoints [none, some ⟨.posInf, .fin 0⟩] = (.fin 0, .fin 0)) ∧
    simplifyOrthogonalPoints [some ⟨.fin 0, .fin 0⟩, none, some ⟨.fin 5, .fin 0⟩] =
      simplifyOrthogonalPoints
        ([some ⟨.fin 0, .fin 0⟩, none, some ⟨.fin 5, .fin 0⟩].filter validSimplifyPoint) :=
  ⟨⟨by decide, claim_C7_amended.1 _ 8 (by decide)⟩,
   ⟨by decide, claim_C7_amended.2.1 _ (by decide)⟩,
   claim_C7_amended.2.2 _⟩

/-! ## Claim C10: endpoint preservation of `simplifyOrthogonalPoints` -/

/-- A coordinate after snapping: either untouched, or a finite value
moved strictly less than 1px. -/
def coordClose (a b : JNum) : Prop :=
  a = b ∨ ∃ va vb, a = JNum.fin va ∧ b = JNum.fin vb ∧ jsAbs (va - vb) < 1

theorem coordClose_refl (a : JNum) : coordClose a a := Or.inl rfl

theorem getLast?_cons_of_ne_nil {α : Type} (x : α) (m : List α) (h : m ≠ []) :
    (x :: m).getLast? = m.getLast? := by
  cases m with
  | nil => exact absurd rfl h
  | cons b bs => exact List.getLast?_cons_cons

/-- The snap condition can only fire between two finite coordinates less
than 1px apart. -/
theorem snap_cond_fin (a b : JNum) (h : ((a.sub b).abs.ltB (.fin 1)) = true) :
    ∃ va vb, a = JNum.fin va ∧ b = JNum.fin vb ∧ jsAbs (va - vb) < 1 := by
  cases a <;> cases b <;> simp_all [JNum.sub, JNum.abs, JNum.ltB]

theorem jsAbs_sub_comm (a b : ℚ) : jsAbs (a - b) = jsAbs (b - a) := by
  rw [jsAbs_eq_abs, jsAbs_eq_abs, abs_sub_comm]

theorem snapGo_length (prev : JPt) (l : List JPt) :
    (snapGo prev l).length = l.length := by
  induction l generalizing prev with
  | nil => rfl
  | cons c rest ih => simp [snapGo, ih]

theorem snapGo_ne_nil (prev : JPt) (l : List JPt) (h : l ≠ []) :
    snapGo prev l ≠ [] := by
  intro hc
  apply h
  have := snapGo_length prev l
  rw [hc] at this
  exact List.length_eq_zero.mp this.symm

/-- The last point of the snapped list is the last input point moved at
most (strictly less than) 1px per coordinate. -/
theorem snapGo_last (prev : JPt) (l : List JPt) (h : l ≠ []) :
    ∃ lo li, (snapGo prev l).getLast? = some lo ∧ l.getLast? = some li ∧
      coordClose lo.x li.x ∧ coordClose lo.y li.y := by
  induction l generalizing prev with
  | nil => exact absurd rfl h
  | cons c rest ih =>
    cases rest with
    | nil =>
      refine ⟨_, c, rfl, rfl, ?_, ?_⟩
      · by_cases hx : ((c.x.sub prev.x).abs.ltB (.fin 1)) = true
        · obtain ⟨va, vb, ha, hb, hd⟩ := snap_cond_fin c.x prev.x hx
          simp only [snapGo, if_pos hx]
          exact Or.inr ⟨vb, va, hb, ha, by rw [jsAbs_sub_comm]; exact hd⟩
        · simp only [snapGo, if_neg hx]
          exact coordClose_refl _
      · by_cases hy : ((c.y.sub prev.y).abs.ltB (.fin 1)) = true
        · obtain ⟨va, vb, ha, hb, hd⟩ := snap_cond_fin c.y prev.y hy
          simp only [snapGo, if_pos hy]
          exact Or.inr ⟨vb, va, hb, ha, by rw [jsAbs_sub_comm]; exact hd⟩
        · simp only [snapGo, if_neg hy]
          exact coordClose_refl _
    | cons c2 rest2 =>
      obtain ⟨lo, li, h1, h2, h3, h4⟩ :=
        ih (⟨if ((c.x.sub prev.x).abs.ltB (.fin 1)) = true then prev.x else c.x,
             if ((c.y.sub prev.y).abs.ltB (.fin 1)) = true then prev.y else c.y⟩ : JPt)
          (by simp)
      refine ⟨lo, li, ?_, ?_, h3, h4⟩
      · rw [show snapGo prev (c :: c2 :: rest2) =
          (⟨if ((c.x.sub prev.x).abs.ltB (.fin 1)) = true then prev.x else c.x,
            if ((c.y.sub prev.y).abs.ltB (.fin 1)) = true then prev.y else c.y⟩ : JPt) ::
            snapGo ⟨if ((c.x.sub prev.x).abs.ltB (.fin 1)) = true then prev.x else c.x,
              if ((c.y.sub prev.y).abs.ltB (.fin 1)) = true then prev.y else c.y⟩
              (c2 :: rest2) from rfl]
        rw [getLast?_cons_of_ne_nil _ _ (snapGo_ne_nil _ _ (by simp))]
        exact h1
      · rw [List.getLast?_cons_cons]
        exact h2

theorem uniqueGo_ne_nil (lastKept : JPt) (l : List JPt) :
    uniqueGo lastKept l ≠ [] := by
  induction l generalizing lastKept with
  | nil => simp [uniqueGo]
  | cons c rest ih =>
    unfold uniqueGo
    split
    · simp
    · split
      · simp
      · exact ih lastKept

theorem uniqueGo_last (lastKept : JPt) (l : List JPt) :
    (uniqueGo lastKept l).getLast? = some (l.getLastD lastKept) := by
  induction l generalizing lastKept with
  | nil => rfl
  | cons c rest ih =>
    unfold uniqueGo
    split
    · rw [getLast?_cons_of_ne_nil _ _ (uniqueGo_ne_nil c rest), ih c]
      simp [List.getLastD_cons, List.getLast?_cons]
    · split
      · rename_i hrest
        have hre : rest = [] := by simpa using hrest
        subst hre
        simp
      · rename_i hrest
        rw [ih lastKept]
        cases rest with
        | nil => simp at hrest
        | cons a as => simp [List.getLastD_cons]

/-- The head of the zero-length-removal pass is the initial kept point,
unless the whole result collapsed to a single point. -/
theorem uniqueGo_head (lastKept : JPt) (l : List JPt) :
    (uniqueGo lastKept l).head? = some lastKept ∨ ∃ c, uniqueGo lastKept l = [c] := by
  induction l generalizing lastKept with
  | nil => exact Or.inl rfl
  | cons c rest ih =>
    unfold uniqueGo
    split
    · exact Or.inl rfl
    · split
      · exact Or.inr ⟨c, rfl⟩
      · exact ih lastKept

theorem mergeGo_ne_nil (prev : JPt) (l : List JPt) (h : l ≠ []) :
    mergeGo prev l ≠ [] := by
  induction l generalizing prev with
  | nil => exact absurd rfl h
  | cons c rest ih =>
    cases rest with
    | nil => simp [mergeGo]
    | cons c2 rest2 =>
      rw [show mergeGo prev (c :: c2 :: rest2) =
        if (prev.y.eqB c.y && c.y.eqB c2.y || prev.x.eqB c.x && c.x.eqB c2.x) then
          mergeGo prev (c2 :: rest2) else c :: mergeGo c (c2 :: rest2) from rfl]
      split
      · exact ih prev (by simp)
      · simp

/-- The collinear-merge pass always keeps the final point. -/
theorem mergeGo_last (prev : JPt) (l : List JPt) (h : l ≠ []) :
    (mergeGo prev l).getLast? = l.getLast? := by
  induction l generalizing prev with
  | nil => exact absurd rfl h
  | cons c rest ih =>
    cases rest with
    | nil => rfl
    | cons c2 rest2 =>
      rw [show mergeGo prev (c :: c2 :: rest2) =
        if (prev.y.eqB c.y && c.y.eqB c2.y || prev.x.eqB c.x && c.x.eqB c2.x) then
          mergeGo prev (c2 :: rest2) else c :: mergeGo c (c2 :: rest2) from rfl]
      split
      · rw [ih prev (by simp), List.getLast?_cons_cons]
      · rw [getLast?_cons_of_ne_nil _ _ (mergeGo_ne_nil c _ (by simp)),
          ih c (by simp), List.getLast?_cons_cons]

/-- The input that refutes C10: the last valid point (21/2, 0) is within
1px of its predecessor (10, 0), so the snapping pass moves it. -/
def c10pts : List (Option JPt) :=
  [some ⟨.fin 0, .fin 0⟩, some ⟨.fin 10, .fin 0⟩, some ⟨.fin (21/2), .fin 0⟩]

/-- C10 is refuted: on `c10pts` the simplified list's last point is
(10, 0) while the last valid input point is (21/2, 0) — the snapping
pass (lines 162–168) pulls the final point onto its predecessor when
they are less than 1px apart, so the endpoint is not preserved exactly. -/
theorem claim_C10_counterexample :
    (simplifyOrthogonalPoints c10pts).getLast? = some ⟨.fin 10, .fin 0⟩ ∧
    (simplifyValidPoints c10pts).getLast? = some ⟨.fin (21/2), .fin 0⟩ ∧
    (⟨.fin 10, .fin 0⟩ : JPt) ≠ ⟨.fin (21/2), .fin 0⟩ := by
  have hval : simplifyValidPoints c10pts =
      [⟨.fin 0, .fin 0⟩, ⟨.fin 10, .fin 0⟩, ⟨.fin (21/2), .fin 0⟩] := rfl
  have hsnap : snapPass [(⟨.fin 0, .fin 0⟩ : JPt), ⟨.fin 10, .fin 0⟩,
      ⟨.fin (21/2), .fin 0⟩] =
      [⟨.fin 0, .fin 0⟩, ⟨.fin 10, .fin 0⟩, ⟨.fin 10, .fin 0⟩] := by
    norm_num [snapPass, snapGo, JNum.sub, JNum.abs, JNum.ltB, jsAbs]
  have huniq : uniquePass [(⟨.fin 0, .fin 0⟩ : JPt), ⟨.fin 10, .fin 0⟩,
      ⟨.fin 10, .fin 0⟩] =
      [⟨.fin 0, .fin 0⟩, ⟨.fin 10, .fin 0⟩] := by
    norm_num [uniquePass, uniqueGo, JNum.sub, JNum.abs, JNum.gtB, JNum.ltB, jsAbs]
  have hout : simplifyOrthogonalPoints c10pts =
      [⟨.fin 0, .fin 0⟩, ⟨.fin 10, .fin 0⟩] := by
    simp only [simplifyOrthogonalPoints]
    rw [hval, hsnap, huniq]
    norm_num [mergePass, mergeGo]
  refine ⟨by rw [hout]; rfl, by rw [hval]; rfl, ?_⟩
  intro hc
  simp only [JPt.mk.injEq, JNum.fin.injEq] at hc
  exact absurd hc.1 (by norm_num)

/-- C10, amended: for every input with at least two valid points, the
first output point equals the first valid input point exactly, and the
last output point agrees with the last valid input point up to the
snapping pass: each coordinate either equals the input's or is a finite
value strictly within 1px of it. -/
theorem claim_C10_amended (points : List (Option JPt))
    (h : 2 ≤ (simplifyValidPoints points).length) :
    (simplifyOrthogonalPoints points).head? = (simplifyValidPoints points).head? ∧
    ∃ lo li, (simplifyOrthogonalPoints points).getLast? = some lo ∧
      (simplifyValidPoints points).getLast? = some li ∧
      coordClose lo.x li.x ∧ coordClose lo.y li.y := by
  have hv2 : ¬ (simplifyValidPoints points).length < 2 := by omega
  cases hval : simplifyValidPoints points with
  | nil => rw [hval] at h; simp at h
  | cons v0 vtail =>
    rw [hval] at hv2
    have hout : simplifyOrthogonalPoints points =
        (if (uniquePass (snapPass (v0 :: vtail))).length < 2 then v0 :: vtail
         else mergePass (uniquePass (snapPass (v0 :: vtail)))) := by
      simp only [simplifyOrthogonalPoints]
      rw [hval, if_neg hv2]
    have hup : uniquePass (snapPass (v0 :: vtail)) = uniqueGo v0 (snapGo v0 vtail) := rfl
    obtain ⟨li, hli⟩ : ∃ li, (v0 :: vtail).getLast? = some li := ⟨_, List.getLast?_cons⟩
    rw [hout]
    by_cases hu : (uniquePass (snapPass (v0 :: vtail))).length < 2
    · rw [if_pos hu]
      exact ⟨rfl, li, li, hli, hli, coordClose_refl _, coordClose_refl _⟩
    · rw [if_neg hu]
      have hsl : ∃ lo, (snapPass (v0 :: vtail)).getLast? = some lo ∧
          coordClose lo.x li.x ∧ coordClose lo.y li.y := by
        cases vtail with
        | nil =>
          simp only [List.getLast?_singleton, Option.some.injEq] at hli
          exact ⟨li, by rw [← hli]; simp [snapPass, snapGo], coordClose_refl _,
            coordClose_refl _⟩
        | cons a as =>
          obtain ⟨lo, li2, h1, h2, h3, h4⟩ := snapGo_last v0 (a :: as) (by simp)
          rw [List.getLast?_cons_cons] at hli
          rw [hli] at h2
          obtain rfl : li = li2 := Option.some_inj.mp h2
          refine ⟨lo, ?_, h3, h4⟩
          show (v0 :: snapGo v0 (a :: as)).getLast? = some lo
          rw [getLast?_cons_of_ne_nil _ _ (snapGo_ne_nil _ _ (by simp))]
          exact h1
      obtain ⟨lo, hlo, hcx, hcy⟩ := hsl
      have hul : (uniquePass (snapPass (v0 :: vtail))).getLast? = some lo := by
        rw [hup, uniqueGo_last, List.getLastD_eq_getLast?]
        have : (snapPass (v0 :: vtail)).getLast? =
            some ((snapGo v0 vtail).getLast?.getD v0) := List.getLast?_cons
        rw [this] at hlo
        exact hlo
      cases hun : uniquePass (snapPass (v0 :: vtail)) with
      | nil => rw [hun] at hu; simp at hu
      | cons u0 urest =>
        have hurest : urest ≠ [] := by
          intro hc
          rw [hun, hc] at hu
          simp at hu
        have hu0 : u0 = v0 := by
          rcases uniqueGo_head v0 (snapGo v0 vtail) with hh | ⟨c, hc⟩
          · rw [← hup, hun] at hh
            simpa using hh
          · rw [← hup, hun] at hc
            cases hc
            exact absurd rfl hurest
        constructor
        · show (u0 :: mergeGo u0 urest).head? = _
          rw [hu0]
          rfl
        · refine ⟨lo, li, ?_, hli, hcx, hcy⟩
          show (u0 :: mergeGo u0 urest).getLast? = some lo
          rw [getLast?_cons_of_ne_nil _ _ (mergeGo_ne_nil u0 urest hurest),
            mergeGo_last u0 urest hurest,
            ← getLast?_cons_of_ne_nil u0 urest hurest, ← hun]
          exact hul

/-- Witness for the amended C10 at a concrete two-point input. -/
theorem claim_C10_amended_witness :
    2 ≤ (simplifyValidPoints
        [some ⟨.fin 0, .fin 0⟩, some ⟨.fin 7, .fin 0⟩]).length ∧
    ((simplifyOrthogonalPoints
        [some ⟨.fin 0, .fin 0⟩, some ⟨.fin 7, .fin 0⟩]).head? =
      (simplifyValidPoints
        [some ⟨.fin 0, .fin 0⟩, some ⟨.fin 7, .fin 0⟩]).head? ∧
    ∃ lo li, (simplifyOrthogonalPoints
        [some ⟨.fin 0, .fin 0⟩, some ⟨.fin 7, .fin 0⟩]).getLast? = some lo ∧
      (simplifyValidPoints
        [some ⟨.fin 0, .fin 0⟩, some ⟨.fin 7, .fin 0⟩]).getLast? = some li ∧
      coordClose lo.x li.x ∧ coordClose lo.y li.y) :=
  ⟨by decide, claim_C10_amended _ (by decide)⟩

/-! ## Claim C9: orthogonality of the router's returned polyline -/

/-- Two points span an axis-aligned (horizontal or vertical) segment. -/
def orthoQ (a b : Pt) : Prop := a.x = b.x ∨ a.y = b.y

/-- Consecutive snapped points differ, per coordinate, by zero or by at
least 1px. -/
def delta01 (a b : Pt) : Prop :=
  (a.x = b.x ∨ 1 ≤ jsAbs (a.x - b.x)) ∧ (a.y = b.y ∨ 1 ≤ jsAbs (a.y - b.y))

/-- The invariant carried from the snap pass into the zero-length
removal pass. -/
def stepOK (a b : Pt) : Prop := orthoQ a b ∧ delta01 a b

/-- The snapping loop on finite points (mirror of `snapGo` under
`Pt.toJ`). -/
def snapGoQ (prev : Pt) : List Pt → List Pt
  | [] => []
  | c :: rest =>
    (⟨if jsAbs (c.x - prev.x) < 1 then prev.x else c.x,
      if jsAbs (c.y - prev.y) < 1 then prev.y else c.y⟩ : Pt) ::
    snapGoQ ⟨if jsAbs (c.x - prev.x) < 1 then prev.x else c.x,
             if jsAbs (c.y - prev.y) < 1 then prev.y else c.y⟩ rest

def snapPassQ : List Pt → List Pt
  | [] => []
  | p :: rest => p :: snapGoQ p rest

/-- The zero-length-removal loop on finite points (mirror of
`uniqueGo`). -/
def uniqueGoQ (lastKept : Pt) : List Pt → List Pt
  | [] => [lastKept]
  | c :: rest =>
    if 1/10 < jsAbs (c.x - lastKept.x) ∨ 1/10 < jsAbs (c.y - lastKept.y) then
      lastKept :: uniqueGoQ c rest
    else if rest.isEmpty then [c]
    else uniqueGoQ lastKept rest

def uniquePassQ : List Pt → List Pt
  | [] => []
  | p :: rest => uniqueGoQ p rest

/-- The collinear-merge loop on finite points (mirror of `mergeGo`). -/
def mergeGoQ (prev : Pt) : List Pt → List Pt
  | [] => []
  | [last] => [last]
  | c :: next :: rest =>
    if (prev.y = c.y ∧ c.y = next.y) ∨ (prev.x = c.x ∧ c.x = next.x) then
      mergeGoQ prev (next :: rest)
    else c :: mergeGoQ c (next :: rest)

def mergePassQ : List Pt → List Pt
  | [] => []
  | u0 :: rest => u0 :: mergeGoQ u0 rest

/-- `simplifyOrthogonalPoints` restricted to finite points. -/
def simplifyQ (l : List Pt) : List Pt :=
  if l.length < 2 then l
  else if (uniquePassQ (snapPassQ l)).length < 2 then l
  else mergePassQ (uniquePassQ (snapPassQ l))

theorem Pt.toJ_x (p : Pt) : p.toJ.x = JNum.fin p.x := rfl

theorem Pt.toJ_y (p : Pt) : p.toJ.y = JNum.fin p.y := rfl

theorem simplifyValidPoints_toJ (l : List Pt) :
    simplifyValidPoints (l.map (fun q => some q.toJ)) = l.map Pt.toJ := by
  induction l with
  | nil => rfl
  | cons p rest ih =>
    simp only [simplifyValidPoints, List.map_cons, List.filter] at ih ⊢
    rw [show validSimplifyPoint (some p.toJ) = true from rfl]
    simp only [List.filterMap]
    rw [show (id (some p.toJ) : Option JPt) = some p.toJ from rfl]
    simp only [ih]

theorem snapGo_toJ (px py : ℚ) (l : List Pt) :
    snapGo ⟨.fin px, .fin py⟩ (l.map Pt.toJ) = (snapGoQ ⟨px, py⟩ l).map Pt.toJ := by
  induction l generalizing px py with
  | nil => rfl
  | cons c rest ih =>
    by_cases hx : jsAbs (c.x - px) < 1 <;> by_cases hy : jsAbs (c.y - py) < 1 <;>
      simp [snapGo, snapGoQ, Pt.toJ, JNum.sub, JNum.abs, JNum.ltB, hx, hy, ih]

theorem snapPass_toJ (l : List Pt) :
    snapPass (l.map Pt.toJ) = (snapPassQ l).map Pt.toJ := by
  cases l with
  | nil => rfl
  | cons p rest =>
    simp only [List.map_cons, snapPass, snapPassQ]
    rw [show (Pt.toJ p : JPt) = ⟨.fin p.x, .fin p.y⟩ from rfl, snapGo_toJ]

theorem uniqueGo_toJ (kx ky : ℚ) (l : List Pt) :
    uniqueGo ⟨.fin kx, .fin ky⟩ (l.map Pt.toJ) = (uniqueGoQ ⟨kx, ky⟩ l).map Pt.toJ := by
  induction l generalizing kx ky with
  | nil => rfl
  | cons c rest ih =>
    by_cases hr : rest = []
    · subst hr
      by_cases hx : 1/10 < jsAbs (c.x - kx) <;> by_cases hy : 1/10 < jsAbs (c.y - ky) <;>
        simp [uniqueGo, uniqueGoQ, Pt.toJ, JNum.sub, JNum.abs, JNum.gtB, JNum.ltB,
          hx, hy, -one_div]
    · by_cases hx : 1/10 < jsAbs (c.x - kx) <;> by_cases hy : 1/10 < jsAbs (c.y - ky) <;>
        simp [uniqueGo, uniqueGoQ, Pt.toJ, JNum.sub, JNum.abs, JNum.gtB, JNum.ltB,
          hx, hy, hr, ih, -one_div]

theorem uniquePass_toJ (l : List Pt) :
    uniquePass (l.map Pt.toJ) = (uniquePassQ l).map Pt.toJ := by
  cases l with
  | nil => rfl
  | cons p rest =>
    simp only [List.map_cons, uniquePass, uniquePassQ]
    rw [show (Pt.toJ p : JPt) = ⟨.fin p.x, .fin p.y⟩ from rfl, uniqueGo_toJ]

theorem mergeGo_toJ (px py : ℚ) (l : List Pt) :
    mergeGo ⟨.fin px, .fin py⟩ (l.map Pt.toJ) = (mergeGoQ ⟨px, py⟩ l).map Pt.toJ := by
  induction l generalizing px py with
  | nil => rfl
  | cons c rest ih =>
    cases rest with
    | nil => rfl
    | cons c2 rest2 =>
      have ihs := ih px py
      have ihc := ih c.x c.y
      simp only [List.map_cons, Pt.toJ] at ihs ihc
      by_cases hc : (py = c.y ∧ c.y = c2.y) ∨ (px = c.x ∧ c.x = c2.x) <;>
        simp [mergeGo, mergeGoQ, Pt.toJ, JNum.eqB, JNum.ltB, hc, ihs, ihc]

theorem mergePass_toJ (l : List Pt) :
    mergePass (l.map Pt.toJ) = (mergePassQ l).map Pt.toJ := by
  cases l with
  | nil => rfl
  | cons p rest =>
    simp only [List.map_cons, mergePass, mergePassQ]
    rw [show (Pt.toJ p : JPt) = ⟨.fin p.x, .fin p.y⟩ from rfl, mergeGo_toJ]

theorem simplifyQ_toJ (l : List Pt) :
    simplifyOrthogonalPoints (l.map (fun q => some q.toJ)) = (simplifyQ l).map Pt.toJ := by
  have hval := simplifyValidPoints_toJ l
  by_cases h1 : l.length < 2
  · simp [simplifyOrthogonalPoints, simplifyQ, hval, List.length_map, h1]
  · by_cases h2 : (uniquePassQ (snapPassQ l)).length < 2 <;>
      simp [simplifyOrthogonalPoints, simplifyQ, hval, snapPass_toJ, uniquePass_toJ,
        mergePass_toJ, List.length_map, h1, h2]

theorem chain'_and {α : Type} {R S : α → α → Prop} (l : List α)
    (hr : List.Chain' R l) (hs : List.Chain' S l) :
    List.Chain' (fun a b => R a b ∧ S a b) l := by
  induction l with
  | nil => simp
  | cons a rest ih =>
    cases rest with
    | nil => simp
    | cons b rest2 =>
      rw [List.chain'_cons] at hr hs ⊢
      exact ⟨⟨hr.1, hs.1⟩, ih hr.2 hs.2⟩

/-- Snapping moves each coordinate onto the previous point or leaves a
gap of at least 1px. -/
theorem snapGoQ_delta01 (prev : Pt) (l : List Pt) :
    List.Chain' delta01 (prev :: snapGoQ prev l) := by
  induction l generalizing prev with
  | nil => simp [snapGoQ]
  | cons c rest ih =>
    simp only [snapGoQ]
    rw [List.chain'_cons]
    refine ⟨⟨?_, ?_⟩, ih _⟩
    · by_cases hx : jsAbs (c.x - prev.x) < 1
      · exact Or.inl (by simp [hx])
      · refine Or.inr ?_
        simp only [if_neg hx]
        rw [jsAbs_sub_comm]
        exact le_of_not_lt hx
    · by_cases hy : jsAbs (c.y - prev.y) < 1
      · exact Or.inl (by simp [hy])
      · refine Or.inr ?_
        simp only [if_neg hy]
        rw [jsAbs_sub_comm]
        exact le_of_not_lt hy

/-- Snapping preserves axis-alignment: if the running output point is
within 1px per coordinate of the input predecessor, the shared
coordinate of each input pair re-snaps onto the output. -/
theorem snapGoQ_ortho (l : List Pt) : ∀ (prevIn prev : Pt),
    jsAbs (prev.x - prevIn.x) < 1 → jsAbs (prev.y - prevIn.y) < 1 →
    List.Chain' orthoQ (prevIn :: l) →
    List.Chain' orthoQ (prev :: snapGoQ prev l) := by
  induction l with
  | nil => intro prevIn prev _ _ _; simp [snapGoQ]
  | cons c rest ih =>
    intro prevIn prev hx hy hch
    rw [List.chain'_cons] at hch
    obtain ⟨ho, hch2⟩ := hch
    simp only [snapGoQ]
    rw [List.chain'_cons]
    constructor
    · rcases ho with hox | hoy
      · have hfire : jsAbs (c.x - prev.x) < 1 := by
          rw [← hox, jsAbs_sub_comm]
          exact hx
        exact Or.inl (by simp [hfire])
      · have hfire : jsAbs (c.y - prev.y) < 1 := by
          rw [← hoy, jsAbs_sub_comm]
          exact hy
        exact Or.inr (by simp [hfire])
    · refine ih c _ ?_ ?_ hch2
      · by_cases hfx : jsAbs (c.x - prev.x) < 1
        · simp only [if_pos hfx]
          rw [jsAbs_sub_comm]
          exact hfx
        · simp only [if_neg hfx, sub_self]
          simp [jsAbs]
      · by_cases hfy : jsAbs (c.y - prev.y) < 1
        · simp only [if_pos hfy]
          rw [jsAbs_sub_comm]
          exact hfy
        · simp only [if_neg hfy, sub_self]
          simp [jsAbs]

theorem ptExt (a b : Pt) (h1 : a.x = b.x) (h2 : a.y = b.y) : a = b := by
  cases a
  cases b
  simp_all

/-- A point dropped by the zero-length pass after snapping coincides
with the last kept point. -/
theorem uniq_drop_eq (a b : Pt) (hd : delta01 a b)
    (hno : ¬(1/10 < jsAbs (b.x - a.x) ∨ 1/10 < jsAbs (b.y - a.y))) : b = a := by
  push_neg at hno
  obtain ⟨hnx, hny⟩ := hno
  obtain ⟨hdx, hdy⟩ := hd
  rw [jsAbs_eq_abs] at hnx hny
  refine ptExt b a ?_ ?_
  · rcases hdx with h | h
    · exact h.symm
    · rw [jsAbs_eq_abs, abs_sub_comm] at h
      linarith
  · rcases hdy with h | h
    · exact h.symm
    · rw [jsAbs_eq_abs, abs_sub_comm] at h
      linarith

/-- Under the snap invariant, the zero-length pass starts its output at
the initial kept point. -/
theorem uniqueGoQ_head (l : List Pt) : ∀ (lastKept : Pt),
    List.Chain' stepOK (lastKept :: l) →
    (uniqueGoQ lastKept l).head? = some lastKept := by
  induction l with
  | nil => intro lastKept _; rfl
  | cons c rest ih =>
    intro lastKept h
    rw [List.chain'_cons] at h
    obtain ⟨hstep, h2⟩ := h
    by_cases hc : 1/10 < jsAbs (c.x - lastKept.x) ∨ 1/10 < jsAbs (c.y - lastKept.y)
    · simp [uniqueGoQ, hc, -one_div]
    · have hbc : c = lastKept := uniq_drop_eq lastKept c hstep.2 hc
      subst hbc
      by_cases hre : rest.isEmpty = true
      · norm_num [uniqueGoQ, hc, hre, jsAbs, List.chain'_singleton]
      · simp only [uniqueGoQ, if_neg hc, if_neg hre]
        exact ih c h2

/-- The zero-length pass preserves the snap invariant chain. -/
theorem uniqueGoQ_chain (l : List Pt) : ∀ (lastKept : Pt),
    List.Chain' stepOK (lastKept :: l) →
    List.Chain' stepOK (uniqueGoQ lastKept l) := by
  induction l with
  | nil => intro lastKept _; simp [uniqueGoQ]
  | cons c rest ih =>
    intro lastKept h
    rw [List.chain'_cons] at h
    obtain ⟨hstep, h2⟩ := h
    by_cases hc : 1/10 < jsAbs (c.x - lastKept.x) ∨ 1/10 < jsAbs (c.y - lastKept.y)
    · simp only [uniqueGoQ, if_pos hc]
      rw [List.chain'_cons']
      refine ⟨?_, ih c h2⟩
      intro h0 hh0
      rw [uniqueGoQ_head rest c h2] at hh0
      rw [Option.mem_some_iff] at hh0
      subst hh0
      exact hstep
    · have hbc : c = lastKept := uniq_drop_eq lastKept c hstep.2 hc
      subst hbc
      by_cases hre : rest.isEmpty = true
      · norm_num [uniqueGoQ, hc, hre, jsAbs, List.chain'_singleton]
      · simp only [uniqueGoQ, if_neg hc, if_neg hre]
        exact ih c h2

/-- The collinear-merge pass preserves axis-alignment. -/
theorem mergeGoQ_chain (l : List Pt) : ∀ (prev : Pt),
    List.Chain' orthoQ (prev :: l) →
    List.Chain' orthoQ (prev :: mergeGoQ prev l) := by
  induction l with
  | nil => intro prev _; simp [mergeGoQ]
  | cons c rest ih =>
    intro prev h
    cases rest with
    | nil => simpa [mergeGoQ] using h
    | cons c2 rest2 =>
      rw [List.chain'_cons] at h
      obtain ⟨ho, h2⟩ := h
      by_cases hcol : (prev.y = c.y ∧ c.y = c2.y) ∨ (prev.x = c.x ∧ c.x = c2.x)
      · simp only [mergeGoQ, if_pos hcol]
        apply ih prev
        rw [List.chain'_cons] at h2 ⊢
        refine ⟨?_, h2.2⟩
        rcases hcol with ⟨ha, hb⟩ | ⟨ha, hb⟩
        · exact Or.inr (ha.trans hb)
        · exact Or.inl (ha.trans hb)
      · simp only [mergeGoQ, if_neg hcol]
        rw [List.chain'_cons]
        exact ⟨ho, ih c h2⟩

/-- The whole simplification pipeline preserves axis-alignment. -/
theorem simplifyQ_chain (l : List Pt) (h : List.Chain' orthoQ l) :
    List.Chain' orthoQ (simplifyQ l) := by
  by_cases h1 : l.length < 2
  · simpa [simplifyQ, h1] using h
  · cases l with
    | nil => simp at h1
    | cons v0 vtail =>
      have hso : List.Chain' orthoQ (v0 :: snapGoQ v0 vtail) :=
        snapGoQ_ortho vtail v0 v0 (by simp [jsAbs]) (by simp [jsAbs]) h
      have hsd : List.Chain' delta01 (v0 :: snapGoQ v0 vtail) := snapGoQ_delta01 v0 vtail
      have hsR : List.Chain' stepOK (v0 :: snapGoQ v0 vtail) := chain'_and _ hso hsd
      have huR : List.Chain' stepOK (uniqueGoQ v0 (snapGoQ v0 vtail)) :=
        uniqueGoQ_chain _ v0 hsR
      by_cases h2 : (uniquePassQ (snapPassQ (v0 :: vtail))).length < 2
      · simpa [simplifyQ, h1, h2] using h
      · have hup : uniquePassQ (snapPassQ (v0 :: vtail)) =
            uniqueGoQ v0 (snapGoQ v0 vtail) := rfl
        simp only [simplifyQ, if_neg h1, if_neg h2]
        rw [hup]
        cases hun : uniqueGoQ v0 (snapGoQ v0 vtail) with
        | nil => rw [hup, hun] at h2; simp at h2
        | cons u0 urest =>
          rw [hun] at huR
          show List.Chain' orthoQ (u0 :: mergeGoQ u0 urest)
          apply mergeGoQ_chain urest u0
          exact huR.imp (fun a b hab => hab.1)

theorem getDirectionVector_axis (pos : JPos) :
    (getDirectionVector pos).x = 0 ∨ (getDirectionVector pos).y = 0 := by
  cases pos <;> simp [getDirectionVector]

/-- The 20px source stub is axis-aligned. -/
theorem stub_ortho_s (p : RouterIn) : orthoQ (pStart p) (pBufS p) := by
  rcases getDirectionVector_axis p.sourcePosition with h | h
  · exact Or.inl (by simp [pStart, pBufS, sDir, h])
  · exact Or.inr (by simp [pStart, pBufS, sDir, h])

/-- The 20px target stub is axis-aligned. -/
theorem stub_ortho_t (p : RouterIn) : orthoQ (pBufT p) (pEnd p) := by
  rcases getDirectionVector_axis (safeTargetPos p) with h | h
  · exact Or.inl (by simp [pEnd, pBufT, tDir, h])
  · exact Or.inr (by simp [pEnd, pBufT, tDir, h])

/-- Every horizontal-first candidate polyline is axis-aligned. -/
theorem zShape_chain (p : RouterIn) (mx : ℚ) : List.Chain' orthoQ (zShape p mx) := by
  simp only [zShape, List.chain'_cons, List.chain'_singleton, and_true]
  exact ⟨stub_ortho_s p, Or.inr rfl, Or.inl rfl, Or.inr rfl, stub_ortho_t p⟩

/-- Every vertical-first candidate polyline is axis-aligned. -/
theorem uShape_chain (p : RouterIn) (my : ℚ) : List.Chain' orthoQ (uShape p my) := by
  simp only [uShape, List.chain'_cons, List.chain'_singleton, and_true]
  exact ⟨stub_ortho_s p, Or.inl rfl, Or.inr rfl, Or.inl rfl, stub_ortho_t p⟩

theorem foldl_choose_mem (cost : PathCandidate → ℚ) (rest : List PathCandidate) :
    ∀ (c0 : PathCandidate),
    rest.foldl (fun best c => if cost c < cost best then c else best) c0 = c0 ∨
    rest.foldl (fun best c => if cost c < cost best then c else best) c0 ∈ rest := by
  induction rest with
  | nil => exact fun c0 => Or.inl rfl
  | cons c rest ih =>
    intro c0
    simp only [List.foldl_cons]
    rcases ih (if cost c < cost c0 then c else c0) with h | h
    · rw [h]
      split
      · exact Or.inr (List.mem_cons_self _ _)
      · exact Or.inl rfl
    · exact Or.inr (List.mem_cons_of_mem _ h)

/-- The selection loop returns one of the generated candidates. -/
theorem chooseBest_mem (cost : PathCandidate → ℚ) (cands : List PathCandidate)
    (h : cands ≠ []) : chooseBest cost cands ∈ cands := by
  cases cands with
  | nil => exact absurd rfl h
  | cons c0 rest =>
    show rest.foldl _ c0 ∈ c0 :: rest
    rcases foldl_choose_mem cost rest c0 with h | h
    · rw [h]
      exact List.mem_cons_self _ _
    · exact List.mem_cons_of_mem _ h

theorem candidatesOf_ne_nil (p : RouterIn) : candidatesOf p ≠ [] := by
  intro hc
  have hlen := congrArg List.length hc
  simp [candidatesOf, List.length_append] at hlen

/-- Every generated candidate's polyline is a Z-shape or a U-shape. -/
theorem candidate_points_shape (p : RouterIn) (c : PathCandidate)
    (h : c ∈ candidatesOf p) :
    (∃ mx, c.points = zShape p mx) ∨ (∃ my, c.points = uShape p my) := by
  simp only [candidatesOf] at h
  rw [List.mem_append] at h
  rcases h with h | h
  · rw [List.mem_append] at h
    rcases h with h | h
    · rw [List.mem_append] at h
      rcases h with h | h
      · rw [List.mem_map] at h
        obtain ⟨mx, _, hc⟩ := h
        exact Or.inl ⟨mx, by rw [← hc]⟩
      · rw [List.mem_singleton] at h
        exact Or.inr ⟨defaultMidY p, by rw [h]⟩
    · rw [List.mem_map] at h
      obtain ⟨my, _, hc⟩ := h
      exact Or.inr ⟨my, by rw [← hc]⟩
  · by_cases hpos : p.sourcePosition = .left ∨ p.sourcePosition = .right
    · rw [if_pos hpos] at h
      rcases List.mem_cons.mp h with h1 | h1
      · exact Or.inl ⟨_, by rw [h1]⟩
      · rw [List.mem_singleton] at h1
        exact Or.inl ⟨_, by rw [h1]⟩
    · rw [if_neg hpos] at h
      cases h

/-- C9: every point list returned by `getCustomSmartPath` is orthogonal —
each pair of consecutive returned points agrees in x or in y, so every
segment of the polyline is axis-aligned.  The generated candidates are
Z- or U-shapes built from axis direction vectors, and each pass of
`simplifyOrthogonalPoints` preserves axis-alignment (snapping re-snaps
the shared coordinate, the zero-length pass only drops exact duplicates
of snapped points, and the merge pass only drops interior points of
collinear runs). -/
theorem claim_C9 (p : RouterIn) :
    List.Chain' (fun a b : JPt => a.x = b.x ∨ a.y = b.y)
      (getCustomSmartPath p).2.2.2 := by
  have hclean : (getCustomSmartPath p).2.2.2 =
      simplifyOrthogonalPoints
        ((selectedCandidate p).points.map (fun q => some q.toJ)) := rfl
  rw [hclean, simplifyQ_toJ, List.chain'_map]
  have hortho : List.Chain' orthoQ (selectedCandidate p).points := by
    rcases candidate_points_shape p _
        (chooseBest_mem (candCost p) (candidatesOf p) (candidatesOf_ne_nil p)) with
      ⟨mx, hm⟩ | ⟨my, hm⟩
    · rw [show (chooseBest (candCost p) (candidatesOf p)).points =
          (selectedCandidate p).points from rfl] at hm
      rw [hm]
      exact zShape_chain p mx
    · rw [show (chooseBest (candCost p) (candidatesOf p)).points =
          (selectedCandidate p).points from rfl] at hm
      rw [hm]
      exact uShape_chain p my
  refine (simplifyQ_chain _ hortho).imp ?_
  intro a b hab
  rcases hab with h | h
  · exact Or.inl (by rw [Pt.toJ_x, Pt.toJ_x, h])
  · exact Or.inr (by rw [Pt.toJ_y, Pt.toJ_y, h])

/-! ## Claim C5: dominance of the rectangle-crossing penalty -/

theorem manhattanLen_nonneg : ∀ (pts : List Pt), 0 ≤ manhattanLen pts
  | [] => le_refl 0
  | [_] => le_refl 0
  | a :: b :: rest => by
    have ih := manhattanLen_nonneg (b :: rest)
    have h1 := jsAbs_nonneg (a.x - b.x)
    have h2 := jsAbs_nonneg (a.y - b.y)
    simp only [manhattanLen]
    linarith

theorem backPenalty_nonneg (p : RouterIn) (pts : List Pt) : 0 ≤ backPenalty p pts := by
  unfold backPenalty
  split
  · split
    · split <;> norm_num
    · exact le_refl 0
  · exact le_refl 0

theorem pairOverlap_nonneg (a b : Pt) : ∀ (o : List Pt), 0 ≤ pairOverlap a b o
  | [] => le_refl 0
  | [_] => le_refl 0
  | o1 :: o2 :: rest => by
    have ih := pairOverlap_nonneg a b (o2 :: rest)
    simp only [pairOverlap]
    have hseg : (0:ℚ) ≤
        (if getSegmentOverlapLength a b o1 o2 > 10 then
          getSegmentOverlapLength a b o1 o2 else 0) := by
      split
      · rename_i hgt
        linarith
      · exact le_refl 0
    linarith

theorem foldl_overlap_ge (p : RouterIn) (a b : Pt) (es : List REdge) :
    ∀ (acc : ℚ), acc ≤ es.foldl (fun acc e =>
      if p.edgeId = some e.id then acc
      else
        match e.waypoints with
        | some o => acc + pairOverlap a b o
        | none => acc) acc := by
  induction es with
  | nil => intro acc; exact le_refl acc
  | cons e rest ih =>
    intro acc
    simp only [List.foldl_cons]
    refine le_trans ?_ (ih _)
    by_cases he : p.edgeId = some e.id
    · simp [he]
    · simp only [if_neg he]
      cases hw : e.waypoints with
      | none => exact le_refl acc
      | some o =>
        show acc ≤ acc + pairOverlap a b o
        exact le_add_of_nonneg_right (pairOverlap_nonneg a b o)

theorem edgeOverlapForSeg_nonneg (p : RouterIn) (a b : Pt) :
    0 ≤ edgeOverlapForSeg p a b :=
  foldl_overlap_ge p a b p.existingEdges 0

theorem edgeOverlaps_nonneg (p : RouterIn) : ∀ (pts : List Pt), 0 ≤ edgeOverlaps p pts
  | [] => le_refl 0
  | [_] => le_refl 0
  | a :: b :: rest => by
    have ih := edgeOverlaps_nonneg p (b :: rest)
    have h1 := edgeOverlapForSeg_nonneg p a b
    simp only [edgeOverlaps]
    linarith

/-- Each crossing contributes its full 20000 to the cost: every other
cost term is nonnegative. -/
theorem candCost_ge_cross (p : RouterIn) (c : PathCandidate) :
    (crossCount p c.points : ℚ) * 20000 ≤ candCost p c := by
  unfold candCost
  have h1 := manhattanLen_nonneg c.points
  have h2 := backPenalty_nonneg p c.points
  have h3 := edgeOverlaps_nonneg p c.points
  linarith

theorem foldl_choose_le (cost : PathCandidate → ℚ) (rest : List PathCandidate) :
    ∀ (c0 : PathCandidate),
      cost (rest.foldl (fun best c => if cost c < cost best then c else best) c0) ≤
        cost c0 ∧
      ∀ c ∈ rest,
        cost (rest.foldl (fun best c => if cost c < cost best then c else best) c0) ≤
          cost c := by
  induction rest with
  | nil => intro c0; exact ⟨le_refl _, by simp⟩
  | cons c rest ih =>
    intro c0
    simp only [List.foldl_cons]
    obtain ⟨h1, h2⟩ := ih (if cost c < cost c0 then c else c0)
    constructor
    · refine le_trans h1 ?_
      split
      · rename_i hlt
        exact le_of_lt hlt
      · exact le_refl _
    · intro d hd
      rcases List.mem_cons.mp hd with rfl | hd2
      · refine le_trans h1 ?_
        split
        · exact le_refl _
        · rename_i hnlt
          exact le_of_not_lt hnlt
      · exact h2 d hd2

/-- The selection loop minimizes the cost over the candidate list. -/
theorem chooseBest_le (cost : PathCandidate → ℚ) (cands : List PathCandidate)
    (c : PathCandidate) (hc : c ∈ cands) :
    cost (chooseBest cost cands) ≤ cost c := by
  cases cands with
  | nil => cases hc
  | cons c0 rest =>
    show cost (rest.foldl _ c0) ≤ cost c
    rcases List.mem_cons.mp hc with rfl | h
    · exact (foldl_choose_le cost rest c).1
    · exact (foldl_choose_le cost rest c0).2 c h

/-- C5, amended: the crossing penalty dominates only candidates whose
remaining cost stays below one crossing unit (20000).  Whenever some
generated candidate has no crossings and total cost below 20000, the
selected candidate has no crossings either.  Without the cost bound the
claim fails (see the counterexample): a distant zero-crossing skyline
lane can be more expensive than a crossing path. -/
theorem claim_C5_amended (p : RouterIn) (c : PathCandidate)
    (hc : c ∈ candidatesOf p) (hzero : crossCount p c.points = 0)
    (hcost : candCost p c < 20000) :
    crossCount p (selectedCandidate p).points = 0 := by
  have hle : candCost p (selectedCandidate p) ≤ candCost p c :=
    chooseBest_le (candCost p) (candidatesOf p) c hc
  have hge := candCost_ge_cross p (selectedCandidate p)
  have hlt1 : (crossCount p (selectedCandidate p).points : ℚ) < 1 := by linarith
  exact Nat.lt_one_iff.mp (by exact_mod_cast hlt1)

/-- An obstacle-free router input: source (0,0) facing right, target
(200,0) facing left, offset 10, no deterministic-hash lane. -/
def c5simple : RouterIn :=
  { sourceX := .fin 0, sourceY := .fin 0, sourcePosition := .right,
    targetX := .fin 200, targetY := .fin 0, targetPosition := some .left,
    offset := 10, avoidanceNodes := [], existingEdges := [], edgeId := none }

theorem c5simple_bufS : pBufS c5simple = ⟨20, 0⟩ := by
  norm_num [pBufS, routerSX, routerSY, sanitizeCoord, sDir, getDirectionVector, c5simple]

theorem c5simple_bufT : pBufT c5simple = ⟨180, 0⟩ := by
  norm_num [pBufT, routerTX, routerTY, sanitizeCoord, tDir, safeTargetPos,
    getDirectionVector, c5simple]

theorem c5simple_midX : defaultMidX c5simple = 100 := by
  rw [defaultMidX, c5simple_bufS, c5simple_bufT]
  norm_num [laneHash, show c5simple.edgeId = none from rfl]

theorem c5simple_sDir : sDir c5simple = ⟨1, 0⟩ := rfl

theorem c5simple_tDir : tDir c5simple = ⟨-1, 0⟩ := rfl

theorem c5simple_cands :
    candidatesOf c5simple =
      [⟨"Direct", zShape c5simple 100⟩, ⟨"Vertical", uShape c5simple (defaultMidY c5simple)⟩,
       ⟨"Detour", zShape c5simple 30⟩, ⟨"Detour", zShape c5simple 170⟩] := by
  have hscan : corridorScan c5simple = ⟨[100], none, none, false⟩ := by
    rw [show corridorScan c5simple = ⟨[defaultMidX c5simple], none, none, false⟩ from by
      simp [corridorScan, show c5simple.avoidanceNodes = [] from rfl], c5simple_midX]
  simp only [candidatesOf, hscan]
  norm_num [yCandsOf, c5simple_bufS, c5simple_bufT, c5simple_sDir, c5simple_tDir,
    laneHash, show c5simple.edgeId = none from rfl,
    show c5simple.offset = 10 from rfl,
    show c5simple.sourcePosition = JPos.right from rfl]

theorem c5simple_z100 : zShape c5simple 100 =
    [⟨0, 0⟩, ⟨20, 0⟩, ⟨100, 0⟩, ⟨100, 0⟩, ⟨180, 0⟩, ⟨200, 0⟩] := by
  rw [zShape, c5simple_bufS, c5simple_bufT]
  rfl

/-- Witness for the amended C5: in the obstacle-free configuration the
direct mid-lane candidate has no crossings and cost 200 < 20000, and
the selected candidate indeed has no crossings. -/
theorem claim_C5_amended_witness :
    (⟨"Direct", zShape c5simple 100⟩ : PathCandidate) ∈ candidatesOf c5simple ∧
    crossCount c5simple (PathCandidate.points ⟨"Direct", zShape c5simple 100⟩) = 0 ∧
    candCost c5simple ⟨"Direct", zShape c5simple 100⟩ < 20000 ∧
    crossCount c5simple (selectedCandidate c5simple).points = 0 := by
  have hc : (⟨"Direct", zShape c5simple 100⟩ : PathCandidate) ∈ candidatesOf c5simple := by
    rw [c5simple_cands]
    exact List.mem_cons_self _ _
  have hzero :
      crossCount c5simple (PathCandidate.points ⟨"Direct", zShape c5simple 100⟩) = 0 := rfl
  have hcost : candCost c5simple ⟨"Direct", zShape c5simple 100⟩ < 20000 := by
    have hp : candCost c5simple ⟨"Direct", zShape c5simple 100⟩ =
        candCost c5simple ⟨"Direct",
          [⟨0, 0⟩, ⟨20, 0⟩, ⟨100, 0⟩, ⟨100, 0⟩, ⟨180, 0⟩, ⟨200, 0⟩]⟩ := by
      rw [c5simple_z100]
    rw [hp]
    norm_num [candCost, manhattanLen, jsAbs, backPenalty, crossCount,
      segCrossings, edgeOverlaps, edgeOverlapForSeg, c5simple_sDir,
      show c5simple.avoidanceNodes = [] from rfl,
      show c5simple.existingEdges = [] from rfl]
  exact ⟨hc, hzero, hcost, claim_C5_amended c5simple _ hc hzero hcost⟩

/-- A tall group obstacle straddling the corridor: any lane over or
under it is about 2 million pixels long. -/
def c5obstacle : CNode :=
  { id := "obs", type := NType.groupNode, position := ⟨50, -1000000⟩,
    styleWidth := none, styleHeight := none, width := some 100,
    height := some 2000000, parentNode := none, selected := false,
    isLast := false }

/-- The router input that refutes C5: same endpoints as `c5simple` but
with the tall obstacle in between. -/
def c5params : RouterIn :=
  { sourceX := .fin 0, sourceY := .fin 0, sourcePosition := .right,
    targetX := .fin 200, targetY := .fin 0, targetPosition := some .left,
    offset := 10, avoidanceNodes := [c5obstacle], existingEdges := [],
    edgeId := none }

theorem c5params_bufS : pBufS c5params = ⟨20, 0⟩ := by
  norm_num [pBufS, routerSX, routerSY, sanitizeCoord, sDir, getDirectionVector, c5params]

theorem c5params_bufT : pBufT c5params = ⟨180, 0⟩ := by
  norm_num [pBufT, routerTX, routerTY, sanitizeCoord, tDir, safeTargetPos,
    getDirectionVector, c5params]

theorem c5params_sDir : sDir c5params = ⟨1, 0⟩ := rfl

theorem c5params_midX : defaultMidX c5params = 100 := by
  rw [defaultMidX, c5params_bufS, c5params_bufT]
  norm_num [laneHash, show c5params.edgeId = none from rfl]

theorem c5params_midY : defaultMidY c5params = 0 := by
  rw [defaultMidY, c5params_bufS, c5params_bufT]
  norm_num [laneHash, show c5params.edgeId = none from rfl]

theorem c5rect25 : getNodeRect c5obstacle 25 = ⟨25, 175, -1000025, some 1000025⟩ := by
  norm_num [getNodeRect, c5obstacle]

theorem c5rect10 : getNodeRect c5obstacle 10 = ⟨40, 160, -1000010, some 1000010⟩ := by
  norm_num [getNodeRect, c5obstacle]

theorem c5params_scan :
    corridorScan c5params = ⟨[100, 5, 195], some 1000025, some (-1000025), true⟩ := by
  norm_num [corridorScan, c5rect25, c5params_bufS, c5params_bufT, c5params_midX,
    jsMin, jsMax, show c5params.avoidanceNodes = [c5obstacle] from rfl,
    show c5obstacle.type = NType.groupNode from rfl]

theorem c5params_cands :
    candidatesOf c5params =
      [⟨"Direct", [⟨0,0⟩, ⟨20,0⟩, ⟨100,0⟩, ⟨100,0⟩, ⟨180,0⟩, ⟨200,0⟩]⟩,
       ⟨"Direct", [⟨0,0⟩, ⟨20,0⟩, ⟨5,0⟩, ⟨5,0⟩, ⟨180,0⟩, ⟨200,0⟩]⟩,
       ⟨"Direct", [⟨0,0⟩, ⟨20,0⟩, ⟨195,0⟩, ⟨195,0⟩, ⟨180,0⟩, ⟨200,0⟩]⟩,
       ⟨"Vertical", [⟨0,0⟩, ⟨20,0⟩, ⟨20,0⟩, ⟨180,0⟩, ⟨180,0⟩, ⟨200,0⟩]⟩,
       ⟨"Skyline", [⟨0,0⟩, ⟨20,0⟩, ⟨20,-1000055⟩, ⟨180,-1000055⟩, ⟨180,0⟩, ⟨200,0⟩]⟩,
       ⟨"Skyline", [⟨0,0⟩, ⟨20,0⟩, ⟨20,1000055⟩, ⟨180,1000055⟩, ⟨180,0⟩, ⟨200,0⟩]⟩,
       ⟨"Detour", [⟨0,0⟩, ⟨20,0⟩, ⟨30,0⟩, ⟨30,0⟩, ⟨180,0⟩, ⟨200,0⟩]⟩,
       ⟨"Detour", [⟨0,0⟩, ⟨20,0⟩, ⟨170,0⟩, ⟨170,0⟩, ⟨180,0⟩, ⟨200,0⟩]⟩] := by
  simp only [candidatesOf, c5params_scan]
  norm_num [yCandsOf, zShape, uShape, c5params_bufS, c5params_bufT, c5params_midY,
    show pStart c5params = ⟨0, 0⟩ from rfl, show pEnd c5params = ⟨200, 0⟩ from rfl,
    laneHash, show c5params.edgeId = none from rfl,
    show c5params.offset = 10 from rfl, c5params_sDir,
    show tDir c5params = ⟨-1, 0⟩ from rfl,
    show c5params.sourcePosition = JPos.right from rfl]

theorem c5cost1 : candCost c5params
    ⟨"Direct", [⟨0,0⟩, ⟨20,0⟩, ⟨100,0⟩, ⟨100,0⟩, ⟨180,0⟩, ⟨200,0⟩]⟩ = 60200 := by
  norm_num [candCost, manhattanLen, jsAbs, backPenalty, crossCount, segCrossings,
    isSegmentCrossingRect, c5rect10, jsMin, jsMax, edgeOverlaps, edgeOverlapForSeg,
    c5params_sDir, show c5params.avoidanceNodes = [c5obstacle] from rfl,
    show c5params.existingEdges = [] from rfl,
    show c5obstacle.type = NType.groupNode from rfl]

theorem c5cost2 : candCost c5params
    ⟨"Direct", [⟨0,0⟩, ⟨20,0⟩, ⟨5,0⟩, ⟨5,0⟩, ⟨180,0⟩, ⟨200,0⟩]⟩ = 25230 := by
  norm_num [candCost, manhattanLen, jsAbs, backPenalty, crossCount, segCrossings,
    isSegmentCrossingRect, c5rect10, jsMin, jsMax, edgeOverlaps, edgeOverlapForSeg,
    c5params_sDir, show c5params.avoidanceNodes = [c5obstacle] from rfl,
    show c5params.existingEdges = [] from rfl,
    show c5obstacle.type = NType.groupNode from rfl]

theorem c5cost3 : candCost c5params
    ⟨"Direct", [⟨0,0⟩, ⟨20,0⟩, ⟨195,0⟩, ⟨195,0⟩, ⟨180,0⟩, ⟨200,0⟩]⟩ = 20230 := by
  norm_num [candCost, manhattanLen, jsAbs, backPenalty, crossCount, segCrossings,
    isSegmentCrossingRect, c5rect10, jsMin, jsMax, edgeOverlaps, edgeOverlapForSeg,
    c5params_sDir, show c5params.avoidanceNodes = [c5obstacle] from rfl,
    show c5params.existingEdges = [] from rfl,
    show c5obstacle.type = NType.groupNode from rfl]

theorem c5cost4 : candCost c5params
    ⟨"Vertical", [⟨0,0⟩, ⟨20,0⟩, ⟨20,0⟩, ⟨180,0⟩, ⟨180,0⟩, ⟨200,0⟩]⟩ = 20200 := by
  norm_num [candCost, manhattanLen, jsAbs, backPenalty, crossCount, segCrossings,
    isSegmentCrossingRect, c5rect10, jsMin, jsMax, edgeOverlaps, edgeOverlapForSeg,
    c5params_sDir, show c5params.avoidanceNodes = [c5obstacle] from rfl,
    show c5params.existingEdges = [] from rfl,
    show c5obstacle.type = NType.groupNode from rfl]

theorem c5cost5 : candCost c5params
    ⟨"Skyline", [⟨0,0⟩, ⟨20,0⟩, ⟨20,-1000055⟩, ⟨180,-1000055⟩, ⟨180,0⟩, ⟨200,0⟩]⟩
      = 2000310 := by
  norm_num [candCost, manhattanLen, jsAbs, backPenalty, crossCount, segCrossings,
    isSegmentCrossingRect, c5rect10, jsMin, jsMax, edgeOverlaps, edgeOverlapForSeg,
    c5params_sDir, show c5params.avoidanceNodes = [c5obstacle] from rfl,
    show c5params.existingEdges = [] from rfl,
    show c5obstacle.type = NType.groupNode from rfl]

theorem c5cost6 : candCost c5params
    ⟨"Skyline", [⟨0,0⟩, ⟨20,0⟩, ⟨20,1000055⟩, ⟨180,1000055⟩, ⟨180,0⟩, ⟨200,0⟩]⟩
      = 2000310 := by
  norm_num [candCost, manhattanLen, jsAbs, backPenalty, crossCount, segCrossings,
    isSegmentCrossingRect, c5rect10, jsMin, jsMax, edgeOverlaps, edgeOverlapForSeg,
    c5params_sDir, show c5params.avoidanceNodes = [c5obstacle] from rfl,
    show c5params.existingEdges = [] from rfl,
    show c5obstacle.type = NType.groupNode from rfl]

theorem c5cost7 : candCost c5params
    ⟨"Detour", [⟨0,0⟩, ⟨20,0⟩, ⟨30,0⟩, ⟨30,0⟩, ⟨180,0⟩, ⟨200,0⟩]⟩ = 20200 := by
  norm_num [candCost, manhattanLen, jsAbs, backPenalty, crossCount, segCrossings,
    isSegmentCrossingRect, c5rect10, jsMin, jsMax, edgeOverlaps, edgeOverlapForSeg,
    c5params_sDir, show c5params.avoidanceNodes = [c5obstacle] from rfl,
    show c5params.existingEdges = [] from rfl,
    show c5obstacle.type = NType.groupNode from rfl]

theorem c5cost8 : candCost c5params
    ⟨"Detour", [⟨0,0⟩, ⟨20,0⟩, ⟨170,0⟩, ⟨170,0⟩, ⟨180,0⟩, ⟨200,0⟩]⟩ = 20200 := by
  norm_num [candCost, manhattanLen, jsAbs, backPenalty, crossCount, segCrossings,
    isSegmentCrossingRect, c5rect10, jsMin, jsMax, edgeOverlaps, edgeOverlapForSeg,
    c5params_sDir, show c5params.avoidanceNodes = [c5obstacle] from rfl,
    show c5params.existingEdges = [] from rfl,
    show c5obstacle.type = NType.groupNode from rfl]

theorem c5params_selected :
    selectedCandidate c5params =
      ⟨"Vertical", [⟨0,0⟩, ⟨20,0⟩, ⟨20,0⟩, ⟨180,0⟩, ⟨180,0⟩, ⟨200,0⟩]⟩ := by
  rw [selectedCandidate, c5params_cands]
  norm_num [chooseBest, c5cost1, c5cost2, c5cost3, c5cost4, c5cost5, c5cost6,
    c5cost7, c5cost8]

/-- C5 is refuted: with the tall obstacle both Skyline candidates have
zero crossings, yet the selected minimum-cost candidate is the Vertical
one, which crosses the obstacle once — its cost 20200 (200 length +
one 20000 crossing) beats the zero-crossing skylines' ≈2000310 length
cost, so the crossing penalty does not dominate all length costs. -/
theorem claim_C5_counterexample :
    ((⟨"Skyline", [⟨0,0⟩, ⟨20,0⟩, ⟨20,-1000055⟩, ⟨180,-1000055⟩, ⟨180,0⟩, ⟨200,0⟩]⟩ :
        PathCandidate) ∈ candidatesOf c5params ∧
      crossCount c5params
        (PathCandidate.points
          ⟨"Skyline", [⟨0,0⟩, ⟨20,0⟩, ⟨20,-1000055⟩, ⟨180,-1000055⟩, ⟨180,0⟩, ⟨200,0⟩]⟩)
        = 0) ∧
    crossCount c5params (selectedCandidate c5params).points ≠ 0 := by
  refine ⟨⟨?_, ?_⟩, ?_⟩
  · rw [c5params_cands]
    simp
  · norm_num [crossCount, segCrossings, isSegmentCrossingRect, c5rect10, jsMin, jsMax,
      show c5params.avoidanceNodes = [c5obstacle] from rfl,
      show c5obstacle.type = NType.groupNode from rfl]
  · rw [c5params_selected]
    norm_num [crossCount, segCrossings, isSegmentCrossingRect, c5rect10, jsMin, jsMax,
      show c5params.avoidanceNodes = [c5obstacle] from rfl,
      show c5obstacle.type = NType.groupNode from rfl]
